import Mathlib

/-!
# Verification of the docx-editor server (`src/server.py`)

Shallow embedding of the document model and of the operations of
`server.py` on top of it, followed by theorems settling the claims
C1–C10.

Modelling conventions (used consistently below):

* Python strings are modeled as `List Char` (`PyStr`): Python indexes and
  slices strings by code point, which is exactly `List Char` indexing.
* python-docx `Length` values are stored in EMU, as exact rationals.
  `Pt x = 12700·x` EMU and `Mm x = 36000·x` EMU; the accessors `.pt` and
  `.mm` divide back.  Python's `float` arithmetic is modeled by exact
  rational arithmetic (all quantities arising in this code are exact
  decimals, where CPython's float round trip `int(emu/36000*36000)` is
  the identity as well).
* python-docx enum members are `int` subclasses; `WD_ALIGN_PARAGRAPH.LEFT`
  has the integer value 0 and is therefore *falsy* in `if pf.alignment:`
  tests.  This truthiness is modeled faithfully.
* `RGBColor` is an `int` subclass holding the 24-bit RGB value, modeled as
  `Nat`; `RGBColor(0, 0, 0)` is falsy.  The snapshot serializes a colour
  as its six-digit hex string (`_rgb_to_hex`) and the applicator parses it
  back (`parse_color`); this encoding is bijective below 2^24, so the
  snapshot colour field is modeled as the `Nat` itself.
* A paragraph's style is kept as the style *name* (python-docx resolves
  names against the style part; an unstyled paragraph reads as "Normal").
-/

namespace DocxEditor

/-- Python strings, indexed by code point. -/
abbrev PyStr := List Char

/-- `s.startswith(pat)` — used to implement substring search. -/
def pyStartsWith : PyStr → PyStr → Bool
  | _, [] => true
  | [], _ :: _ => false
  | c :: s, d :: t => c == d && pyStartsWith s t

/-- Python's `pat in s` substring test (`"" in s` is `True`). -/
def pyContains : PyStr → PyStr → Bool
  | [], pat => pat.isEmpty
  | c :: rest, pat => pyStartsWith (c :: rest) pat || pyContains rest pat

/-- Python's `s.replace(pat, repl)`: all non-overlapping occurrences,
scanned left to right.  The `Nat` argument is a fuel bound; `s.length`
suffices because every step consumes at least one character of `s`. -/
def pyReplaceAux : Nat → PyStr → PyStr → PyStr → PyStr
  | 0, s, _, _ => s
  | _ + 1, [], _, _ => []
  | fuel + 1, c :: rest, pat, repl =>
    if pat ≠ [] && pyStartsWith (c :: rest) pat then
      repl ++ pyReplaceAux fuel (List.drop (pat.length - 1) rest) pat repl
    else
      c :: pyReplaceAux fuel rest pat repl

/-- Python's `s.replace(pat, repl)` (the server only calls it with a
non-empty `pat`). -/
def pyReplace (s pat repl : PyStr) : PyStr := pyReplaceAux s.length s pat repl

/-- Value of one hexadecimal digit, `none` for a non-digit. -/
def hexDigitVal (c : Char) : Option Nat :=
  if '0' ≤ c ∧ c ≤ '9' then some (c.toNat - '0'.toNat)
  else if 'a' ≤ c ∧ c ≤ 'f' then some (c.toNat - 'a'.toNat + 10)
  else if 'A' ≤ c ∧ c ≤ 'F' then some (c.toNat - 'A'.toNat + 10)
  else none

/-- Big-endian hex parse; `none` when a character is not a hex digit
(Python's `int(x, 16)` raises, which the callers catch). -/
def parseHexAux : PyStr → Nat → Option Nat
  | [], acc => some acc
  | c :: rest, acc =>
    match hexDigitVal c with
    | some v => parseHexAux rest (acc * 16 + v)
    | none => none

/-- `_hex_to_rgb` and the identical inline colour parsing of `format_text`
and `_apply_styles_from_params.parse_color`: strip every `#`, require six
hex digits, otherwise `None`.  The byte-pair decomposition
`RGBColor(int(c[0:2],16), int(c[2:4],16), int(c[4:6],16))` equals the
whole-string parse. -/
def parse_color (s : PyStr) : Option Nat :=
  let c := s.filter (· ≠ '#')
  if c.length = 6 then parseHexAux c 0 else none

/-- `WD_ALIGN_PARAGRAPH` members used by the server
(LEFT=0, CENTER=1, RIGHT=2, JUSTIFY=3, DISTRIBUTE=4). -/
inductive Alignment where
  | left
  | center
  | right
  | justify
  | distribute
deriving DecidableEq, Repr

/-- `WD_ORIENT` (PORTRAIT=0, LANDSCAPE=1). -/
inductive Orient where
  | portrait
  | landscape
deriving DecidableEq, Repr

/-- `WD_STYLE_TYPE` (PARAGRAPH=1, CHARACTER=2, TABLE=3, LIST=4). -/
inductive StyleType where
  | paragraph
  | character
  | table
  | list
deriving DecidableEq, Repr

/-- A style's font record (`style.font`).  Every attribute is an override:
`none` means "inherit".  Lengths are EMU. -/
structure DocFont where
  name : Option String := none
  size : Option ℚ := none
  bold : Option Bool := none
  italic : Option Bool := none
  underline : Option Bool := none
  color : Option Nat := none
deriving DecidableEq, Repr

/-- A style's paragraph-format record (`style.paragraph_format`).
`line_spacing` is a multiple of single spacing (a Python float); the
remaining lengths are EMU. -/
structure DocParaFmt where
  alignment : Option Alignment := none
  line_spacing : Option ℚ := none
  space_before : Option ℚ := none
  space_after : Option ℚ := none
  first_line_indent : Option ℚ := none
  left_indent : Option ℚ := none
  right_indent : Option ℚ := none
deriving DecidableEq, Repr

/-- A named style of the document's style part. -/
structure Style where
  name : String
  style_id : String
  styleType : StyleType
  hidden : Bool := false
  font : DocFont := {}
  pf : DocParaFmt := {}
  base_style : Option String := none
deriving DecidableEq, Repr

/-- One run: a contiguous span of text with one set of character
overrides (`none` = inherit).  `size` is EMU. -/
structure Run where
  text : PyStr
  bold : Option Bool := none
  italic : Option Bool := none
  underline : Option Bool := none
  size : Option ℚ := none
  fontName : Option String := none
  color : Option Nat := none
deriving DecidableEq, Repr

/-- A body or cell paragraph: its runs and the *name* of its style. -/
structure Para where
  runs : List Run := []
  style : String := "Normal"
deriving DecidableEq, Repr

/-- `paragraph.text`: concatenation of the run texts. -/
def Para.text (p : Para) : PyStr := (p.runs.map Run.text).flatten

/-- A table cell owns a list of paragraphs. -/
abbrev Cell := List Para

/-- A table row is a list of cells. -/
abbrev TableRow := List Cell

/-- A table is a list of rows (`table.rows`, each row's `.cells`). -/
abbrev DocTable := List TableRow

/-- One section's geometry (`doc.sections[i]`); all lengths EMU,
each `none` when the underlying XML attribute is absent. -/
structure DocSection where
  page_width : Option ℚ := none
  page_height : Option ℚ := none
  orientation : Orient := .portrait
  top_margin : Option ℚ := none
  bottom_margin : Option ℚ := none
  left_margin : Option ℚ := none
  right_margin : Option ℚ := none
  gutter : Option ℚ := none
  header_distance : Option ℚ := none
  footer_distance : Option ℚ := none
  different_first_page : Bool := false
deriving DecidableEq, Repr

/-- The core properties consumed by the applicator (the extractor also
copies further metadata fields, which nothing consumes). -/
structure CoreProps where
  author : Option String := none
  title : Option String := none
  subject : Option String := none
  keywords : Option String := none
  comments : Option String := none
  category : Option String := none
deriving DecidableEq, Repr

/-- The document object: body paragraphs, tables, styles, sections and
core properties. -/
structure Doc where
  paragraphs : List Para := []
  tables : List DocTable := []
  styles : List Style := []
  sections : List DocSection := []
  core_properties : CoreProps := {}
deriving DecidableEq, Repr

/-- Multiplication of a rational by a natural number, routed through
`mkRat` (unlike `Rat.mul`, `mkRat` evaluates inside the kernel, which the
concrete counterexamples below rely on); `ratMulNat_eq` checks it against
the ordinary product. -/
def ratMulNat (a : ℚ) (n : Nat) : ℚ := mkRat (a.num * n) a.den

/-- Division of a rational by a natural number via `mkRat`;
`ratDivNat_eq` checks it against the ordinary quotient. -/
def ratDivNat (a : ℚ) (n : Nat) : ℚ := mkRat a.num (a.den * n)

theorem ratMulNat_eq (a : ℚ) (n : Nat) : ratMulNat a n = a * n := by
  rw [ratMulNat, Rat.mkRat_eq_div]
  push_cast
  rw [mul_comm, mul_div_assoc, Rat.num_div_den, mul_comm]

theorem ratDivNat_eq (a : ℚ) (n : Nat) : ratDivNat a n = a / n := by
  rw [ratDivNat, Rat.mkRat_eq_div]
  push_cast
  rw [div_mul_eq_div_div, Rat.num_div_den]

/-- `Pt x` in EMU. -/
def ptEmu (x : ℚ) : ℚ := ratMulNat x 12700

/-- `Mm x` in EMU. -/
def mmEmu (x : ℚ) : ℚ := ratMulNat x 36000

/-- `doc.styles[name]` — python-docx looks a style up by name. -/
def lookupStyle (doc : Doc) (name : String) : Option Style :=
  doc.styles.find? (fun s => s.name == name)

/-! ## The fresh document (`Document()`)

The DOM collaborator's default template, modeled with a representative
built-in style set (US-Letter page, one-inch margins, portrait) and one
empty "Normal" body paragraph as the template content every later anchor
resolves against.  The built-in styles carry a few representative
non-default attributes so that the round-trip theorems are not vacuous;
"Default Paragraph Font" is a hidden character style. -/

def normalStyle : Style :=
  { name := "Normal", style_id := "Normal", styleType := .paragraph }

def heading1Style : Style :=
  { name := "Heading 1", style_id := "Heading1", styleType := .paragraph,
    font := { name := some "Calibri Light", size := some (ptEmu 16), color := some 0x2E74B5 },
    pf := { space_before := some (ptEmu 12) } }

def heading2Style : Style :=
  { name := "Heading 2", style_id := "Heading2", styleType := .paragraph,
    font := { name := some "Calibri Light", size := some (ptEmu 13), color := some 0x2E74B5 },
    pf := { space_before := some (ptEmu 2) } }

def listBulletStyle : Style :=
  { name := "List Bullet", style_id := "ListBullet", styleType := .paragraph,
    pf := { left_indent := some (mmEmu (mkRat 127 20)), first_line_indent := some (mmEmu (mkRat (-127) 40)) } }

def listNumberStyle : Style :=
  { name := "List Number", style_id := "ListNumber", styleType := .paragraph,
    pf := { left_indent := some (mmEmu (mkRat 127 20)), first_line_indent := some (mmEmu (mkRat (-127) 40)) } }

def defaultParagraphFontStyle : Style :=
  { name := "Default Paragraph Font", style_id := "DefaultParagraphFont",
    styleType := .character, hidden := true }

def freshStyles : List Style :=
  [normalStyle, heading1Style, heading2Style, listBulletStyle, listNumberStyle,
   defaultParagraphFontStyle]

def freshSection : DocSection :=
  { page_width := some (ptEmu 612), page_height := some (ptEmu 792),
    orientation := .portrait,
    top_margin := some (ptEmu 72), bottom_margin := some (ptEmu 72),
    left_margin := some (ptEmu 72), right_margin := some (ptEmu 72),
    gutter := some 0,
    header_distance := some (ptEmu 36), footer_distance := some (ptEmu 36),
    different_first_page := false }

/-- `Document()`: the fresh document every `apply_template_parameters`
call creates and the base every claim-C1 build starts from. -/
def freshDoc : Doc :=
  { paragraphs := [{ runs := [], style := "Normal" }],
    tables := [], styles := freshStyles, sections := [freshSection],
    core_properties := {} }

/-! ## Anchor resolver (`_find_paragraph_index`) -/

/-- The `for i, p in enumerate(doc.paragraphs)` scan: index of the first
paragraph whose text contains `t`, else `-1`. -/
def firstContainingIdx : List Para → PyStr → Int → Int
  | [], _, _ => -1
  | p :: ps, t, i => if pyContains p.text t then i else firstContainingIdx ps t (i + 1)

/-- `_find_paragraph_index(doc, target_text, target_paragraph_index)`.
An explicit index is validated against `[0, len)` (never clamped); else a
*truthy* `target_text` (so not `None` and not `""`) selects the first
containing paragraph; otherwise `-1`. -/
def find_paragraph_index (doc : Doc) (target_text : Option PyStr)
    (target_paragraph_index : Option Int) : Int :=
  match target_paragraph_index with
  | some idx =>
    if 0 ≤ idx ∧ idx < (doc.paragraphs.length : Int) then idx else -1
  | none =>
    match target_text with
    | some t => if t ≠ [] then firstContainingIdx doc.paragraphs t 0 else -1
    | none => -1

/-! ## Block insertion -/

/-- `insert_paragraph_before(text, style)` / `add_paragraph(text, style)`
build a paragraph with a single run when the text is non-empty (and no
run at all for `""`); with `style=None` the paragraph reads back as
"Normal". -/
def mkParagraph (text : PyStr) (style : Option String) : Para :=
  { runs := if text = [] then [] else [{ text := text }],
    style := style.getD "Normal" }

/-- The `for item in items: ref.insert_paragraph_before(item, style)` loop.
The document's paragraph list is `pre ++ suf` with the reference paragraph
at the head of `suf`; each iteration places the new paragraph immediately
before the reference, i.e. at the end of `pre`. -/
def insertBeforeLoop (style : Option String) : List Para → List Para → List PyStr → List Para
  | pre, suf, [] => pre ++ suf
  | pre, suf, item :: rest => insertBeforeLoop style (pre ++ [mkParagraph item style]) suf rest

/-- The `for item in items: doc.add_paragraph(item, style)` loop (append
at the end of the body). -/
def addParagraphLoop (style : Option String) : List Para → List PyStr → List Para
  | ps, [] => ps
  | ps, item :: rest => addParagraphLoop style (ps ++ [mkParagraph item style]) rest

/-- Shared BEFORE/AFTER placement of `insert_header_near_text`,
`insert_line_or_paragraph_near_text` and `insert_numbered_list_near_text`
once the anchor index `i` is resolved: BEFORE inserts each block
immediately before the anchor; AFTER inserts before the anchor's
successor when one exists, else appends to the document end. -/
def insertBlocksAt (doc : Doc) (i : Nat) (items : List PyStr) (position : String)
    (style : Option String) : Option Doc :=
  if position = "before" then
    some { doc with paragraphs :=
      insertBeforeLoop style (doc.paragraphs.take i) (doc.paragraphs.drop i) items }
  else if position = "after" then
    if i + 1 < doc.paragraphs.length then
      some { doc with paragraphs :=
        insertBeforeLoop style (doc.paragraphs.take (i + 1)) (doc.paragraphs.drop (i + 1)) items }
    else
      some { doc with paragraphs := addParagraphLoop style doc.paragraphs items }
  else
    none

/-- Document-level core of `insert_header_near_text` (everything between
the document checks and the save). -/
def insert_header_core (doc : Doc) (target_text : Option PyStr) (header_title : Option PyStr)
    (position : String) (header_style : String) (target_paragraph_index : Option Int) :
    Except String (String × Doc) :=
  if header_title.getD [] = [] then .error "header_title is required."
  else
    let p_idx := find_paragraph_index doc target_text target_paragraph_index
    if p_idx = -1 then .error "Target paragraph not found."
    else
      match insertBlocksAt doc p_idx.toNat [header_title.getD []] position (some header_style) with
      | some doc' =>
        let t := String.mk (header_title.getD [])
        .ok (s!"Inserted header '{t}' {position} paragraph {p_idx}.", doc')
      | none => .error "Invalid position. Use 'before' or 'after'."

/-- Document-level core of `insert_line_or_paragraph_near_text`. -/
def insert_line_core (doc : Doc) (target_text : Option PyStr) (line_text : Option PyStr)
    (position : String) (line_style : Option String) (target_paragraph_index : Option Int) :
    Except String (String × Doc) :=
  if line_text.getD [] = [] then .error "line_text is required."
  else
    let p_idx := find_paragraph_index doc target_text target_paragraph_index
    if p_idx = -1 then .error "Target paragraph not found."
    else
      match insertBlocksAt doc p_idx.toNat [line_text.getD []] position line_style with
      | some doc' => .ok (s!"Inserted paragraph {position} paragraph {p_idx}.", doc')
      | none => .error "Invalid position. Use 'before' or 'after'."

/-- `'List Bullet' if bullet_type == 'bullet' else 'List Number'`. -/
def listStyleName (bullet_type : String) : String :=
  if bullet_type = "bullet" then "List Bullet" else "List Number"

/-- Document-level core of `insert_numbered_list_near_text`. -/
def insert_numbered_list_core (doc : Doc) (target_text : Option PyStr)
    (list_items : List PyStr) (position : String) (target_paragraph_index : Option Int)
    (bullet_type : String) : Except String (String × Doc) :=
  if list_items = [] then .error "list_items is required."
  else
    let p_idx := find_paragraph_index doc target_text target_paragraph_index
    if p_idx = -1 then .error "Target paragraph not found."
    else
      match insertBlocksAt doc p_idx.toNat list_items position
          (some (listStyleName bullet_type)) with
      | some doc' =>
        let n := list_items.length
        .ok (s!"Inserted list of {n} items {position} paragraph {p_idx}.", doc')
      | none => .error "Invalid position. Use 'before' or 'after'."

/-! ## Range formatter (`format_text`) -/

/-- Document-level core of `format_text`: validate the paragraph index,
default/clamp `end_pos` to the text length, validate `0 <= start < end`,
then clear the paragraph and re-emit up to three runs. -/
def format_text_core (doc : Doc) (paragraph_index : Option Int) (start_pos : Int)
    (end_pos : Option Int) (bold italic underline : Option Bool) (color : Option PyStr)
    (font_size : Option Int) (font_name : Option String) : Except String (String × Doc) :=
  match paragraph_index with
  | none => .error "Invalid paragraph index."
  | some pi =>
    if pi < 0 ∨ (doc.paragraphs.length : Int) ≤ pi then .error "Invalid paragraph index."
    else
      let i := pi.toNat
      let p := doc.paragraphs.getD i {}
      let full_text := p.text
      let e0 : Int :=
        match end_pos with
        | none => (full_text.length : Int)
        | some e => if (full_text.length : Int) < e then (full_text.length : Int) else e
      if start_pos < 0 ∨ e0 ≤ start_pos then .error "Invalid start_pos or end_pos."
      else
        let s := start_pos.toNat
        let e := e0.toNat
        let part1 := full_text.take s
        let part2 := (full_text.drop s).take (e - s)
        let part3 := full_text.drop e
        let mid : Run :=
          { text := part2, bold := bold, italic := italic, underline := underline,
            size := (font_size.map fun n => ptEmu (n : ℚ)),
            fontName := font_name,
            color := color.bind parse_color }
        let runs' := (if part1 ≠ [] then [({ text := part1 } : Run)] else [])
          ++ (if part2 ≠ [] then [mid] else [])
          ++ (if part3 ≠ [] then [({ text := part3 } : Run)] else [])
        let p' : Para := { p with runs := runs' }
        .ok (s!"Formatted text in paragraph {pi} from position {start_pos} to {e0}.",
          { doc with paragraphs := doc.paragraphs.set i p' })

/-! ## Search and replace (`search_and_replace`) -/

/-- The per-paragraph rewrite: clear the runs and add one run holding the
fully substituted text. -/
def srRewrite (find repl : PyStr) (p : Para) : Para :=
  { runs := [{ text := pyReplace p.text find repl }], style := p.style }

/-- The per-paragraph conditional of the loop body. -/
def srMap (find repl : PyStr) (p : Para) : Para :=
  if pyContains p.text find then srRewrite find repl p else p

/-- The `for p in paragraphs:` loop over one paragraph list, returning the
rewritten list and the number of paragraphs modified. -/
def srParas : List Para → PyStr → PyStr → List Para × Nat
  | [], _, _ => ([], 0)
  | p :: ps, f, r =>
    let rest := srParas ps f r
    if pyContains p.text f then (srRewrite f r p :: rest.1, rest.2 + 1)
    else (p :: rest.1, rest.2)

/-- A nested `for` layer: apply `g` to every element, summing counts. -/
def srList {α : Type} (g : α → PyStr → PyStr → α × Nat) :
    List α → PyStr → PyStr → List α × Nat
  | [], _, _ => ([], 0)
  | x :: xs, f, r =>
    let hd := g x f r
    let tl := srList g xs f r
    (hd.1 :: tl.1, hd.2 + tl.2)

/-- Document-level core of `search_and_replace`: all body paragraphs
first, then every paragraph of every cell of every row of every table;
the count is the number of paragraphs rewritten. -/
def search_and_replace_core (doc : Doc) (find_text repl : PyStr) : Doc × Nat :=
  let bp := srParas doc.paragraphs find_text repl
  let bt := srList (srList (srList srParas)) doc.tables find_text repl
  ({ doc with paragraphs := bp.1, tables := bt.1 }, bp.2 + bt.2)

/-! ## Custom styles (`create_custom_style`) -/

/-- Document-level core of `create_custom_style`: refuse a duplicate name,
require the base style, then `add_style(name, WD_STYLE_TYPE.PARAGRAPH)`
and set the provided font attributes.  `if rgb:` makes an all-zero colour
(black) silently not applied. -/
def create_custom_style_core (doc : Doc) (style_name : Option String)
    (bold italic : Option Bool) (font_size : Option Int) (font_name : Option String)
    (color : Option PyStr) (base_style : String) : Except String (String × Doc) :=
  match style_name with
  | none => .error "style_name is required."
  | some sn =>
    if sn = "" then .error "style_name is required."
    else if (lookupStyle doc sn).isSome then .error s!"Style '{sn}' already exists."
    else if (lookupStyle doc base_style).isNone then
      .error s!"Base style '{base_style}' does not exist."
    else
      let rgb := (color.bind parse_color).bind fun v => if v = 0 then none else some v
      let st : Style :=
        { name := sn, style_id := sn, styleType := .paragraph, hidden := false,
          font := { name := font_name, size := (font_size.map fun n => ptEmu (n : ℚ)),
                    bold := bold, italic := italic, underline := none, color := rgb },
          pf := {}, base_style := some base_style }
      .ok (s!"Created custom paragraph style '{sn}'.",
        { doc with styles := doc.styles ++ [st] })

/-! ## Server state and the tool wrappers

The module globals `current_doc` / `current_doc_path` together with the
file store the `Document(filename)` / `doc.save(filename)` calls touch. -/

structure ServerState where
  current_doc : Option Doc := none
  current_doc_path : Option String := none
  files : List (String × Doc) := []
deriving DecidableEq, Repr

/-- `os.path.exists(f)` plus `Document(f)`. -/
def getFile (st : ServerState) (f : String) : Option Doc :=
  (st.files.find? (fun e => e.1 == f)).map (fun e => e.2)

/-- `doc.save(f)`. -/
def putFile (st : ServerState) (f : String) (d : Doc) : ServerState :=
  { st with files := (f, d) :: st.files.filter (fun e => !(e.1 == f)) }

/-- Head of every mutating tool:
`doc = current_doc; if filename and os.path.exists(filename): doc = Document(filename)`.
Returns the selected document and whether it came from the file store —
when it did not, the tool is aliasing (and thus mutating) the current
document, even when a (non-existing) filename was passed. -/
def selectDoc (st : ServerState) (filename : Option String) : Option (Doc × Bool) :=
  match filename with
  | some f =>
    match getFile st f with
    | some d => some (d, true)
    | none => st.current_doc.map (fun d => (d, false))
  | none => st.current_doc.map (fun d => (d, false))

/-- Tail of every mutating tool: the in-place mutation lands on the
current document unless the document was loaded from a file, and
`if filename: doc.save(filename)` writes the file in either case. -/
def commitDoc (st : ServerState) (filename : Option String) (fromFile : Bool) (d : Doc) :
    ServerState :=
  let st1 := if fromFile then st else { st with current_doc := some d }
  match filename with
  | some f => putFile st1 f d
  | none => st1

/-- The shared shape of the mutating tools: select the document, run the
document-level core, commit on success, leave the state untouched on an
error return. -/
def runMutatingTool (st : ServerState) (filename : Option String)
    (core : Doc → Except String (String × Doc)) : String × ServerState :=
  match selectDoc st filename with
  | none => ("No active document. Call create_document first.", st)
  | some (d, fromFile) =>
    match core d with
    | .error msg => (msg, st)
    | .ok (msg, d') => (msg, commitDoc st filename fromFile d')

/-- The `insert_header_near_text` tool. -/
def insert_header_near_text (st : ServerState) (filename : Option String)
    (target_text : Option PyStr) (header_title : Option PyStr) (position : String)
    (header_style : String) (target_paragraph_index : Option Int) : String × ServerState :=
  runMutatingTool st filename fun d =>
    insert_header_core d target_text header_title position header_style target_paragraph_index

/-- The `insert_line_or_paragraph_near_text` tool. -/
def insert_line_or_paragraph_near_text (st : ServerState) (filename : Option String)
    (target_text : Option PyStr) (line_text : Option PyStr) (position : String)
    (line_style : Option String) (target_paragraph_index : Option Int) : String × ServerState :=
  runMutatingTool st filename fun d =>
    insert_line_core d target_text line_text position line_style target_paragraph_index

/-- The `insert_numbered_list_near_text` tool (`list_items = None` and
`list_items = []` are both falsy, so the empty list stands for both). -/
def insert_numbered_list_near_text (st : ServerState) (filename : Option String)
    (target_text : Option PyStr) (list_items : List PyStr) (position : String)
    (target_paragraph_index : Option Int) (bullet_type : String) : String × ServerState :=
  runMutatingTool st filename fun d =>
    insert_numbered_list_core d target_text list_items position target_paragraph_index bullet_type

/-- The `format_text` tool. -/
def format_text (st : ServerState) (filename : Option String) (paragraph_index : Option Int)
    (start_pos : Int) (end_pos : Option Int) (bold italic underline : Option Bool)
    (color : Option PyStr) (font_size : Option Int) (font_name : Option String) :
    String × ServerState :=
  runMutatingTool st filename fun d =>
    format_text_core d paragraph_index start_pos end_pos bold italic underline color
      font_size font_name

/-- The `search_and_replace` tool (`replace_text = None` becomes `""`). -/
def search_and_replace (st : ServerState) (filename : Option String)
    (find_text : Option PyStr) (replace_text : Option PyStr) : String × ServerState :=
  runMutatingTool st filename fun d =>
    if find_text.getD [] = [] then .error "find_text is required."
    else
      let res := search_and_replace_core d (find_text.getD []) (replace_text.getD [])
      let ft := String.mk (find_text.getD [])
      let rt := String.mk (replace_text.getD [])
      let n := res.2
      .ok (s!"Replaced '{ft}' with '{rt}' in {n} elements.", res.1)

/-- The `create_custom_style` tool. -/
def create_custom_style (st : ServerState) (filename : Option String)
    (style_name : Option String) (bold italic : Option Bool) (font_size : Option Int)
    (font_name : Option String) (color : Option PyStr) (base_style : String) :
    String × ServerState :=
  runMutatingTool st filename fun d =>
    create_custom_style_core d style_name bold italic font_size font_name color base_style

/-! ## The snapshot (the JSON value `extract_document_parameters` emits)

Each `Option` field models presence of the corresponding JSON key
(`none` = key absent), except where a comment says the key is always
present and may be `null`.  The purely diagnostic snapshot parts that no
code consumes (`custom_properties`, `document_variables`, `numbering`,
`headers_footers`, the table summary, `source_file` and the extraction
timestamp) are omitted from the model. -/

/-- One style's `font` sub-object. -/
structure FontInfo where
  name : Option String := none
  size_pt : Option ℚ := none
  bold : Option Bool := none
  italic : Option Bool := none
  underline : Option String := none
  color : Option Nat := none
deriving DecidableEq, Repr

/-- One style's `paragraph_format` sub-object. -/
structure ParaFmtInfo where
  alignment : Option String := none
  line_spacing : Option ℚ := none
  space_before_pt : Option ℚ := none
  space_after_pt : Option ℚ := none
  first_line_indent_mm : Option ℚ := none
  left_indent_mm : Option ℚ := none
  right_indent_mm : Option ℚ := none
deriving DecidableEq, Repr

/-- One entry of the styles map. -/
structure StyleInfo where
  style_id : Option String := none
  font : Option FontInfo := none
  paragraph_format : Option ParaFmtInfo := none
deriving DecidableEq, Repr

/-- The four dictionaries of `_extract_styles_info`, as ordered
association lists (Python dicts preserve insertion order). -/
structure StylesInfo where
  paragraph_styles : List (String × StyleInfo) := []
  character_styles : List (String × StyleInfo) := []
  table_styles : List (String × StyleInfo) := []
  list_styles : List (String × StyleInfo) := []
deriving DecidableEq, Repr

/-- The `margins` sub-object of one section: each margin records its mm
and pt representations together, under the same presence condition. -/
structure MarginsInfo where
  top : Option (ℚ × ℚ) := none
  bottom : Option (ℚ × ℚ) := none
  left : Option (ℚ × ℚ) := none
  right : Option (ℚ × ℚ) := none
  gutter : Option (ℚ × ℚ) := none
deriving DecidableEq, Repr

/-- The `header_footer` sub-object of one section. -/
structure HeaderFooterInfo where
  header_distance_mm : Option ℚ := none
  footer_distance_mm : Option ℚ := none
deriving DecidableEq, Repr

/-- One entry of the snapshot's `sections` list.  `page_width` and
`page_height` keys are always emitted; `none` models the JSON value
`null` (a `Length` that was absent or zero). -/
structure SectionInfo where
  page_width : Option ℚ := none
  page_height : Option ℚ := none
  orientation : String := "portrait"
  margins : MarginsInfo := {}
  header_footer : HeaderFooterInfo := {}
  different_first_page : Bool := false
deriving DecidableEq, Repr

/-- The `core_properties` snapshot keys the applicator consumes; a key is
present only when the document value is not `None`. -/
structure CorePropsInfo where
  author : Option String := none
  title : Option String := none
  subject : Option String := none
  keywords : Option String := none
  comments : Option String := none
  category : Option String := none
deriving DecidableEq, Repr

/-- The whole snapshot. -/
structure DocParams where
  core_properties : CorePropsInfo := {}
  sections : List SectionInfo := []
  styles : StylesInfo := {}
  paragraphs_count : Nat := 0
  tables_count : Nat := 0
deriving DecidableEq, Repr

/-! ## Snapshot extractor -/

/-- Python truthiness of an optional `Length` (absent and zero are both
falsy). -/
def truthyLen : Option ℚ → Option ℚ
  | some v => if v ≠ 0 then some v else none
  | none => none

/-- `str(WD_ALIGN_PARAGRAPH.X)` as python-docx renders enum members. -/
def alignStr : Alignment → String
  | .left => "LEFT (0)"
  | .center => "CENTER (1)"
  | .right => "RIGHT (2)"
  | .justify => "JUSTIFY (3)"
  | .distribute => "DISTRIBUTE (4)"

/-- The font block of `_extract_styles_info`: only truthy / non-default
attributes are recorded (`bold`/`italic` only when `True`, `underline`
only when neither `None` nor `False`, a colour only when non-zero, and
an empty font name or zero size is falsy and skipped). -/
def font_info_of (f : DocFont) : FontInfo :=
  { name := f.name.bind fun n => if n ≠ "" then some n else none,
    size_pt := (truthyLen f.size).map fun s => ratDivNat s 12700,
    bold := if f.bold = some true then some true else none,
    italic := if f.italic = some true then some true else none,
    underline := if f.underline = some true then some "True" else none,
    color := f.color.bind fun c => if c ≠ 0 then some c else none }

/-- The paragraph-format block of `_extract_styles_info`:
`pf.alignment` is truthy only for a non-LEFT value (LEFT is the integer
0); `line_spacing` must be truthy and different from `1.0`; each length
must be truthy with a non-zero converted value. -/
def para_fmt_info_of (pf : DocParaFmt) : ParaFmtInfo :=
  { alignment :=
      pf.alignment.bind fun a => if a ≠ .left then some (alignStr a) else none,
    line_spacing :=
      pf.line_spacing.bind fun v => if v ≠ 0 ∧ v ≠ 1 then some v else none,
    space_before_pt :=
      (truthyLen pf.space_before).bind fun v =>
        if ratDivNat v 12700 ≠ 0 then some (ratDivNat v 12700) else none,
    space_after_pt :=
      (truthyLen pf.space_after).bind fun v =>
        if ratDivNat v 12700 ≠ 0 then some (ratDivNat v 12700) else none,
    first_line_indent_mm :=
      (truthyLen pf.first_line_indent).bind fun v =>
        if ratDivNat v 36000 ≠ 0 then some (ratDivNat v 36000) else none,
    left_indent_mm :=
      (truthyLen pf.left_indent).bind fun v =>
        if ratDivNat v 36000 ≠ 0 then some (ratDivNat v 36000) else none,
    right_indent_mm :=
      (truthyLen pf.right_indent).bind fun v =>
        if ratDivNat v 36000 ≠ 0 then some (ratDivNat v 36000) else none }

/-- One style's snapshot entry: `style_id` only when truthy and different
from the name; the `font` / `paragraph_format` sub-objects only when
non-empty. -/
def style_info_of (s : Style) : StyleInfo :=
  let fi := font_info_of s.font
  let pi := para_fmt_info_of s.pf
  { style_id := if s.style_id ≠ "" ∧ s.style_id ≠ s.name then some s.style_id else none,
    font := if fi ≠ ({} : FontInfo) then some fi else none,
    paragraph_format := if pi ≠ ({} : ParaFmtInfo) then some pi else none }

/-- Every paragraph inside the tables, in document order. -/
def all_table_paras (doc : Doc) : List Para :=
  (doc.tables.map fun t => (t.map List.flatten).flatten).flatten

/-- The `used_styles` set: names referenced by a body paragraph or by a
paragraph of some table cell. -/
def used_style_names (doc : Doc) : List String :=
  doc.paragraphs.map Para.style ++ (all_table_paras doc).map Para.style

/-- One fold step of the `for style in doc.styles:` loop. -/
def extractStylesStep (used : List String) (only_used exclude_hidden : Bool)
    (acc : StylesInfo) (s : Style) : StylesInfo :=
  if exclude_hidden && s.hidden then acc
  else if only_used && !(used.contains s.name) then acc
  else
    let e := (s.name, style_info_of s)
    match s.styleType with
    | .paragraph => { acc with paragraph_styles := acc.paragraph_styles ++ [e] }
    | .character => { acc with character_styles := acc.character_styles ++ [e] }
    | .table => { acc with table_styles := acc.table_styles ++ [e] }
    | .list => { acc with list_styles := acc.list_styles ++ [e] }

/-- `_extract_styles_info(doc, only_used, exclude_hidden)` (every caller
leaves `exclude_hidden` at its default `True`). -/
def extract_styles_info (doc : Doc) (only_used exclude_hidden : Bool) : StylesInfo :=
  doc.styles.foldl (extractStylesStep (used_style_names doc) only_used exclude_hidden) {}

/-- `_extract_section_properties`: one entry per section, with truthy
`Length` values converted to pt/mm and the orientation rendered as a
string (`'landscape'` iff the DOM reports landscape). -/
def extract_section_properties (doc : Doc) : List SectionInfo :=
  doc.sections.map fun s =>
    { page_width := (truthyLen s.page_width).map (ratDivNat · 12700),
      page_height := (truthyLen s.page_height).map (ratDivNat · 12700),
      orientation := if s.orientation = .landscape then "landscape" else "portrait",
      margins :=
        { top := (truthyLen s.top_margin).map fun v => (ratDivNat v 36000, ratDivNat v 12700),
          bottom := (truthyLen s.bottom_margin).map fun v => (ratDivNat v 36000, ratDivNat v 12700),
          left := (truthyLen s.left_margin).map fun v => (ratDivNat v 36000, ratDivNat v 12700),
          right := (truthyLen s.right_margin).map fun v => (ratDivNat v 36000, ratDivNat v 12700),
          gutter := (truthyLen s.gutter).map fun v => (ratDivNat v 36000, ratDivNat v 12700) },
      header_footer :=
        { header_distance_mm := (truthyLen s.header_distance).map (ratDivNat · 36000),
          footer_distance_mm := (truthyLen s.footer_distance).map (ratDivNat · 36000) },
      different_first_page := s.different_first_page }

/-- `_extract_core_properties` restricted to the keys the applicator
consumes (a key is emitted only for a non-`None` value). -/
def extract_core_properties (doc : Doc) : CorePropsInfo :=
  { author := doc.core_properties.author,
    title := doc.core_properties.title,
    subject := doc.core_properties.subject,
    keywords := doc.core_properties.keywords,
    comments := doc.core_properties.comments,
    category := doc.core_properties.category }

/-- `extract_document_parameters` over an already-selected document
(`all_styles=False` means `only_used=True`). -/
def extract_document_parameters_core (doc : Doc) (all_styles : Bool) : DocParams :=
  { core_properties := extract_core_properties doc,
    sections := extract_section_properties doc,
    styles := extract_styles_info doc (!all_styles) true,
    paragraphs_count := doc.paragraphs.length,
    tables_count := doc.tables.length }

/-- The `extract_document_parameters` tool: an explicit filename that does
not exist yields the JSON error object and no side effect; otherwise the
snapshot of the selected document.  (`compact` only changes JSON
indentation and is not modeled.) -/
def extract_document_parameters (st : ServerState) (filename : Option String)
    (all_styles : Bool) : Except String DocParams × ServerState :=
  match filename with
  | some f =>
    match getFile st f with
    | none => (.error s!"File not found: {f}", st)
    | some d => (.ok (extract_document_parameters_core d all_styles), st)
  | none =>
    match st.current_doc with
    | some d => (.ok (extract_document_parameters_core d all_styles), st)
    | none => (.error "No document loaded. Provide a filename or create a document first.", st)

/-! ## Snapshot applicator -/

/-- `_apply_styles_from_params.parse_alignment`: upper-case, then test the
substrings CENTER, LEFT, RIGHT, JUSTIFY in that order. -/
def parse_alignment (s : String) : Option Alignment :=
  let u := s.toUpper.data
  if pyContains u "CENTER".data then some .center
  else if pyContains u "LEFT".data then some .left
  else if pyContains u "RIGHT".data then some .right
  else if pyContains u "JUSTIFY".data then some .justify
  else none

/-- Apply a snapshot `font` block to a style font.  The snapshot colour
is parsed back from hex (always a valid six-digit string here, see the
module comment) and `if color:` skips an all-zero value; `underline`
follows the string branch `underline_val.lower() == 'true'`. -/
def apply_font_info (f : DocFont) (fi : FontInfo) : DocFont :=
  let f1 := match fi.name with
    | some n => { f with name := some n }
    | none => f
  let f2 := match fi.size_pt with
    | some v => { f1 with size := some (ptEmu v) }
    | none => f1
  let f3 := match fi.bold with
    | some b => { f2 with bold := some b }
    | none => f2
  let f4 := match fi.italic with
    | some b => { f3 with italic := some b }
    | none => f3
  let f5 := match fi.underline with
    | some u => { f4 with underline := some (u.toLower == "true") }
    | none => f4
  match fi.color with
  | some c => if c ≠ 0 then { f5 with color := some c } else f5
  | none => f5

/-- Apply a snapshot `paragraph_format` block to a style paragraph
format.  `if alignment:` skips both a failed parse and the falsy
`WD_ALIGN_PARAGRAPH.LEFT`. -/
def apply_para_fmt_info (pf : DocParaFmt) (pi : ParaFmtInfo) : DocParaFmt :=
  let p1 := match pi.alignment with
    | some a =>
      match parse_alignment a with
      | some al => if al ≠ .left then { pf with alignment := some al } else pf
      | none => pf
    | none => pf
  let p2 := match pi.line_spacing with
    | some v => { p1 with line_spacing := some v }
    | none => p1
  let p3 := match pi.space_before_pt with
    | some v => { p2 with space_before := some (ptEmu v) }
    | none => p2
  let p4 := match pi.space_after_pt with
    | some v => { p3 with space_after := some (ptEmu v) }
    | none => p3
  let p5 := match pi.first_line_indent_mm with
    | some v => { p4 with first_line_indent := some (mmEmu v) }
    | none => p4
  let p6 := match pi.left_indent_mm with
    | some v => { p5 with left_indent := some (mmEmu v) }
    | none => p5
  match pi.right_indent_mm with
  | some v => { p6 with right_indent := some (mmEmu v) }
  | none => p6

/-- Apply one snapshot style entry to an existing style object. -/
def apply_style_info (s : Style) (info : StyleInfo) : Style :=
  let s1 := match info.font with
    | some fi => { s with font := apply_font_info s.font fi }
    | none => s
  match info.paragraph_format with
  | some pi => { s1 with pf := apply_para_fmt_info s1.pf pi }
  | none => s1

/-- In-place mutation of the style object `doc.styles[n]` found by name:
replace the first style named `n`. -/
def set_style : List Style → String → Style → List Style
  | [], _, _ => []
  | s :: rest, n, s' => if s.name == n then s' :: rest else s :: set_style rest n s'

/-- The `for style_name, style_info in params['paragraph_styles'].items()`
loop of `_apply_styles_from_params`: a name that does not resolve in the
document is skipped; otherwise the font and paragraph-format blocks are
applied and the counter is incremented.  (In the typed snapshot model no
application step raises, so the `except: continue` arm is dead.) -/
def applyStylesList (doc : Doc) (entries : List (String × StyleInfo)) : Doc × Nat :=
  entries.foldl
    (fun acc e =>
      match lookupStyle acc.1 e.1 with
      | none => acc
      | some s =>
        ({ acc.1 with styles := set_style acc.1.styles e.1 (apply_style_info s e.2) },
          acc.2 + 1))
    (doc, 0)

/-- `_apply_styles_from_params(doc, styles_params)`: only the
`paragraph_styles` dictionary is processed; character, table and list
styles are never applied or counted. -/
def apply_styles_from_params (doc : Doc) (sp : StylesInfo) : Doc × Nat :=
  applyStylesList doc sp.paragraph_styles

/-- Apply one snapshot section entry onto a document section: margins
from the `_mm` values, then the page size, then the orientation.  The
`page_width`/`page_height` keys are always present in a snapshot, so
`Pt(None)` raises a `TypeError` when a value is `null`; the error result
models that uncaught exception. -/
def apply_section_params (sec : DocSection) (sp : SectionInfo) : Except String DocSection :=
  let m := sp.margins
  let s1 := match m.top with
    | some mmpt => { sec with top_margin := some (mmEmu mmpt.1) }
    | none => sec
  let s2 := match m.bottom with
    | some mmpt => { s1 with bottom_margin := some (mmEmu mmpt.1) }
    | none => s1
  let s3 := match m.left with
    | some mmpt => { s2 with left_margin := some (mmEmu mmpt.1) }
    | none => s2
  let s4 := match m.right with
    | some mmpt => { s3 with right_margin := some (mmEmu mmpt.1) }
    | none => s3
  match sp.page_width, sp.page_height with
  | some w, some h =>
    let s5 := { s4 with page_width := some (ptEmu w), page_height := some (ptEmu h) }
    .ok (if sp.orientation == "landscape" then { s5 with orientation := .landscape } else s5)
  | _, _ => .error "TypeError: Pt(None)"

/-- The positional section loop of `apply_template_parameters`: snapshot
section `i` lands on document section `i` when that index exists; extra
snapshot sections are silently dropped. -/
def apply_sections_list : List DocSection → List SectionInfo → Except String (List DocSection)
  | secs, [] => .ok secs
  | [], _ :: _ => .ok []
  | sec :: rest, sp :: sps =>
    match apply_section_params sec sp with
    | .error e => .error e
    | .ok sec' =>
      match apply_sections_list rest sps with
      | .error e => .error e
      | .ok rest' => .ok (sec' :: rest')

/-- The core-property block of `apply_template_parameters`: each present
key is copied unconditionally. -/
def apply_core_properties (cp : CoreProps) (info : CorePropsInfo) : CoreProps :=
  let c1 := match info.author with
    | some v => { cp with author := some v }
    | none => cp
  let c2 := match info.title with
    | some v => { c1 with title := some v }
    | none => c1
  let c3 := match info.subject with
    | some v => { c2 with subject := some v }
    | none => c2
  let c4 := match info.keywords with
    | some v => { c3 with keywords := some v }
    | none => c3
  let c5 := match info.comments with
    | some v => { c4 with comments := some v }
    | none => c4
  match info.category with
  | some v => { c5 with category := some v }
  | none => c5

/-- `apply_template_parameters` on an already-parsed snapshot: create a
fresh document, apply sections positionally, then the styles, then the
core properties; the result carries `styles_applied`.  On the `TypeError`
path the real server's global current document is left partially
mutated — modeled as an error result (no theorem below reaches it). -/
def apply_template_parameters_core (params : DocParams) : Except String (Doc × Nat) :=
  match apply_sections_list freshDoc.sections params.sections with
  | .error e => .error e
  | .ok secs =>
    let d1 : Doc := { freshDoc with sections := secs }
    let sres := apply_styles_from_params d1 params.styles
    let d3 : Doc :=
      { sres.1 with core_properties :=
          apply_core_properties sres.1.core_properties params.core_properties }
    .ok (d3, sres.2)

/-- The `apply_template_parameters` tool: on success the new document
replaces the current document and the path becomes `output_filename` (or
`new_document.docx`).  JSON parsing of the snapshot string is outside the
typed model; on the `TypeError` path the replacement fresh document is
modeled as `freshDoc` (partially applied in the real server). -/
def apply_template_parameters (st : ServerState) (params : DocParams)
    (output_filename : Option String) : String × ServerState :=
  let path := output_filename.getD "new_document.docx"
  match apply_template_parameters_core params with
  | .ok dc =>
    let cnt := dc.2
    (s!"Created new document with template parameters. Styles applied: {cnt}. Ready to save to {path}.",
      { st with current_doc := some dc.1, current_doc_path := some path })
  | .error e =>
    (e, { st with current_doc := some freshDoc, current_doc_path := some path })

/-! ## Documents built through the block-insertion and style-creation
operations (the class claim C1 quantifies over) -/

/-- One call to a block-insertion or style-creation tool, with the
current document as the target (no filename). -/
inductive BuildOp where
  | createStyle (style_name : Option String) (bold italic : Option Bool)
      (font_size : Option Int) (font_name : Option String) (color : Option PyStr)
      (base_style : String)
  | insertHeader (target_text : Option PyStr) (header_title : Option PyStr)
      (position : String) (header_style : String) (target_paragraph_index : Option Int)
  | insertLine (target_text : Option PyStr) (line_text : Option PyStr)
      (position : String) (line_style : Option String) (target_paragraph_index : Option Int)
  | insertList (target_text : Option PyStr) (list_items : List PyStr)
      (position : String) (target_paragraph_index : Option Int) (bullet_type : String)
deriving Repr

/-- Effect of one operation on the current document (an error return
leaves it unchanged). -/
def runBuildOp (d : Doc) : BuildOp → Doc
  | .createStyle sn b i fs fn c bs =>
    match create_custom_style_core d sn b i fs fn c bs with
    | .ok md => md.2
    | .error _ => d
  | .insertHeader tt ht pos hs tpi =>
    match insert_header_core d tt ht pos hs tpi with
    | .ok md => md.2
    | .error _ => d
  | .insertLine tt lt pos ls tpi =>
    match insert_line_core d tt lt pos ls tpi with
    | .ok md => md.2
    | .error _ => d
  | .insertList tt items pos tpi bt =>
    match insert_numbered_list_core d tt items pos tpi bt with
    | .ok md => md.2
    | .error _ => d

/-- A document built purely through the block-insertion and
style-creation operations, starting from the fresh document. -/
def runBuild (ops : List BuildOp) : Doc := ops.foldl runBuildOp freshDoc

/-- The section attributes claim C1 compares: margins and orientation. -/
def sectionGeometry (s : DocSection) : Option ℚ × Option ℚ × Option ℚ × Option ℚ × Orient :=
  (s.top_margin, s.bottom_margin, s.left_margin, s.right_margin, s.orientation)

/-- Names of the fresh document's built-in styles. -/
def builtinStyleNames : List String := freshStyles.map Style.name

/-- Claim C1 as stated, for one document `d`: `apply(extract(d))`
succeeds and yields a document with the same section margins and
orientation and, for *every* style of `d`, a style of the same name
whose non-default attributes (in the extractor's sense, `style_info_of`)
coincide.  (Boolean so that concrete counterexamples are decidable.) -/
def roundTripClaimB (d : Doc) : Bool :=
  match apply_template_parameters_core (extract_document_parameters_core d false) with
  | .error _ => false
  | .ok ndc =>
    (ndc.1.sections.map sectionGeometry == d.sections.map sectionGeometry) &&
    d.styles.all fun s =>
      match lookupStyle ndc.1 s.name with
      | some s' => style_info_of s' == style_info_of s
      | none => false

/-- Claim C1 as stated (propositional form). -/
def roundTripClaim (d : Doc) : Prop := roundTripClaimB d = true

/-- Claim C2's description of the counter, following the spec's words: a
snapshot paragraph style is counted only when it exists in the fresh
document's style set *and* its entry carries at least one font or
paragraph-format change. -/
def claimedStylesAppliedCount (doc : Doc) (sp : StylesInfo) : Nat :=
  (sp.paragraph_styles.filter fun e =>
    (lookupStyle doc e.1).isSome &&
      (e.2.font.isSome || e.2.paragraph_format.isSome)).length

end DocxEditor



namespace DocxEditor

/-! ## Helper lemmas -/

/-- Inserting blocks one at a time immediately before a fixed reference
paragraph preserves the input order. -/
theorem insertBeforeLoop_eq (style : Option String) :
    ∀ (items : List PyStr) (pre suf : List Para),
      insertBeforeLoop style pre suf items =
        pre ++ items.map (fun t => mkParagraph t style) ++ suf := by
  intro items
  induction items with
  | nil => intro pre suf; simp [insertBeforeLoop]
  | cons item rest ih =>
    intro pre suf
    simp [insertBeforeLoop, ih]

/-- Appending blocks one at a time preserves the input order. -/
theorem addParagraphLoop_eq (style : Option String) :
    ∀ (items : List PyStr) (ps : List Para),
      addParagraphLoop style ps items = ps ++ items.map (fun t => mkParagraph t style) := by
  intro items
  induction items with
  | nil => intro ps; simp [addParagraphLoop]
  | cons item rest ih =>
    intro ps
    simp [addParagraphLoop, ih]

/-- A valid explicit paragraph index resolves to itself. -/
theorem find_paragraph_index_valid (d : Doc) (tt : Option PyStr) (i : Nat)
    (hi : i < d.paragraphs.length) :
    find_paragraph_index d tt (some (i : Int)) = (i : Int) := by
  simp only [find_paragraph_index]
  rw [if_pos]
  constructor
  · exact Int.natCast_nonneg i
  · exact_mod_cast hi

/-- State effect of a mutating tool on the current document when no
filename is passed and the core succeeds. -/
theorem runMutatingTool_current (st : ServerState) (d : Doc)
    (core : Doc → Except String (String × Doc)) (msg : String) (d' : Doc)
    (hcur : st.current_doc = some d) (hcore : core d = .ok (msg, d')) :
    (runMutatingTool st none core).2.current_doc = some d' := by
  simp [runMutatingTool, selectDoc, hcur, hcore, commitDoc]

/-- State preservation of a mutating tool when no filename is passed and
the core fails. -/
theorem runMutatingTool_error (st : ServerState) (d : Doc)
    (core : Doc → Except String (String × Doc)) (msg : String)
    (hcur : st.current_doc = some d) (hcore : core d = .error msg) :
    runMutatingTool st none core = (msg, st) := by
  simp [runMutatingTool, selectDoc, hcur, hcore]

end DocxEditor

namespace DocxEditor

theorem insert_numbered_list_core_resolved (d : Doc) (items : List PyStr)
    (hitems : items ≠ []) (i : Nat) (hi : i < d.paragraphs.length)
    (bt : String) (pos : String) :
    ∃ msg, insert_numbered_list_core d none items pos (some (i : Int)) bt =
      match insertBlocksAt d i items pos (some (listStyleName bt)) with
      | some d' => .ok (msg, d')
      | none => .error "Invalid position. Use 'before' or 'after'." := by
  have hne : ¬((i : Int) = -1) := by omega
  simp only [insert_numbered_list_core, if_neg hitems,
    find_paragraph_index_valid d none i hi, if_neg hne, Int.toNat_natCast]
  exact ⟨_, rfl⟩

end DocxEditor

namespace DocxEditor

/-- The paragraphs a list-insertion call creates, in input order. -/
def listBlocks (items : List PyStr) (bt : String) : List Para :=
  items.map (fun t => mkParagraph t (some (listStyleName bt)))

/-- C4: for every document, resolved anchor index `i` and ordered item
list, `insert_numbered_list_near_text` preserves the input order: BEFORE
puts the items immediately before the anchor; AFTER puts them between the
anchor and its old successor; when the anchor is the last paragraph they
are appended at the end, in input order. -/
theorem insert_numbered_list_order (st : ServerState) (d : Doc)
    (hcur : st.current_doc = some d) (items : List PyStr) (hitems : items ≠ [])
    (i : Nat) (hi : i < d.paragraphs.length) (bt : String) :
    ((insert_numbered_list_near_text st none none items "before" (some (i : Int)) bt).2.current_doc =
      some { d with paragraphs := d.paragraphs.take i ++ listBlocks items bt ++ d.paragraphs.drop i }) ∧
    (i + 1 < d.paragraphs.length →
      (insert_numbered_list_near_text st none none items "after" (some (i : Int)) bt).2.current_doc =
        some { d with paragraphs :=
          d.paragraphs.take (i + 1) ++ listBlocks items bt ++ d.paragraphs.drop (i + 1) }) ∧
    (i + 1 = d.paragraphs.length →
      (insert_numbered_list_near_text st none none items "after" (some (i : Int)) bt).2.current_doc =
        some { d with paragraphs := d.paragraphs ++ listBlocks items bt }) := by
  refine ⟨?_, ?_, ?_⟩
  · obtain ⟨msg, hcore⟩ := insert_numbered_list_core_resolved d items hitems i hi bt "before"
    simp only [insertBlocksAt, if_pos rfl, insertBeforeLoop_eq, listBlocks] at hcore
    exact runMutatingTool_current st d _ msg _ hcur hcore
  · intro hnext
    obtain ⟨msg, hcore⟩ := insert_numbered_list_core_resolved d items hitems i hi bt "after"
    rw [show insertBlocksAt d i items "after" (some (listStyleName bt)) =
        some { d with paragraphs :=
          d.paragraphs.take (i + 1) ++ listBlocks items bt ++ d.paragraphs.drop (i + 1) } from by
      simp [insertBlocksAt, insertBeforeLoop_eq, listBlocks, hnext]] at hcore
    exact runMutatingTool_current st d _ msg _ hcur hcore
  · intro hlast
    have hnot : ¬(i + 1 < d.paragraphs.length) := by omega
    obtain ⟨msg, hcore⟩ := insert_numbered_list_core_resolved d items hitems i hi bt "after"
    rw [show insertBlocksAt d i items "after" (some (listStyleName bt)) =
        some { d with paragraphs := d.paragraphs ++ listBlocks items bt } from by
      simp [insertBlocksAt, addParagraphLoop_eq, listBlocks, hnot]] at hcore
    exact runMutatingTool_current st d _ msg _ hcur hcore

end DocxEditor

namespace DocxEditor

/-- The middle run `format_text` emits: the requested overrides applied
to the `[start, end)` span. -/
def fmtMidRun (T : PyStr) (s e : Nat) (b it u : Option Bool) (c : Option PyStr)
    (fs : Option Int) (fn : Option String) : Run :=
  { text := (T.drop s).take (e - s), bold := b, italic := it, underline := u,
    size := fs.map (fun n => ptEmu (n : ℚ)), fontName := fn,
    color := c.bind parse_color }

/-- The rebuilt paragraph: plain prefix and suffix runs, each omitted when
its span is empty, around the formatted middle run. -/
def fmtPara (p : Para) (s e : Nat) (b it u : Option Bool) (c : Option PyStr)
    (fs : Option Int) (fn : Option String) : Para :=
  { p with runs :=
      ((if 0 < s then [{ text := p.text.take s }] else [])
        ++ [fmtMidRun p.text s e b it u c fs fn]
        ++ (if e < p.text.length then [{ text := p.text.drop e }] else [])) }

theorem format_text_core_valid (d : Doc) (i : Nat) (hi : i < d.paragraphs.length)
    (s e : Nat) (hs : s < e) (he : e ≤ (d.paragraphs.getD i {}).text.length)
    (b it u : Option Bool) (c : Option PyStr) (fs : Option Int) (fn : Option String) :
    ∃ msg, format_text_core d (some (i : Int)) (s : Int) (some (e : Int)) b it u c fs fn =
      .ok (msg, { d with
        paragraphs := d.paragraphs.set i (fmtPara (d.paragraphs.getD i {}) s e b it u c fs fn) }) := by
  have hTlen : s < (d.paragraphs.getD i {}).text.length := lt_of_lt_of_le hs he
  have hbound : ¬((i : Int) < 0 ∨ (d.paragraphs.length : Int) ≤ (i : Int)) := by omega
  have hclamp : ¬(((d.paragraphs.getD i {}).text.length : Int) < (e : Int)) := by omega
  have hvalid : ¬((s : Int) < 0 ∨ (e : Int) ≤ (s : Int)) := by omega
  have h1 : ((d.paragraphs.getD i {}).text.take s ≠ []) ↔ (0 < s) := by
    rw [ne_eq, List.take_eq_nil_iff]
    constructor
    · intro h
      by_contra hc
      exact h (Or.inl (by omega))
    · intro h hc
      rcases hc with hc | hc
      · omega
      · rw [hc] at hTlen
        simp at hTlen
  have h2 : ((d.paragraphs.getD i {}).text.drop s).take (e - s) ≠ [] := by
    rw [ne_eq, List.take_eq_nil_iff]
    rintro (hc | hc)
    · omega
    · rw [List.drop_eq_nil_iff] at hc
      omega
  have h3 : ((d.paragraphs.getD i {}).text.drop e ≠ []) ↔ (e < (d.paragraphs.getD i {}).text.length) := by
    rw [ne_eq, List.drop_eq_nil_iff]
    omega
  simp only [format_text_core, if_neg hbound, if_neg hclamp, if_neg hvalid,
    Int.toNat_natCast, if_pos h2, h1, h3, fmtPara, fmtMidRun]
  exact ⟨_, rfl⟩

end DocxEditor

namespace DocxEditor

/-- Concatenating the up-to-three rebuilt runs restores the whole text. -/
theorem three_runs_text (T : PyStr) (s e : Nat) (hs : s < e) (he : e ≤ T.length) (r : Run)
    (hr : r.text = (T.drop s).take (e - s)) :
    (((if 0 < s then [({ text := T.take s } : Run)] else [])
      ++ [r]
      ++ (if e < T.length then [({ text := T.drop e } : Run)] else [])).map Run.text).flatten
      = T := by
  have key : (T.drop s).take (e - s) ++ T.drop e = T.drop s := by
    have h : T.drop e = (T.drop s).drop (e - s) := by
      rw [List.drop_drop]
      congr 1
      omega
    rw [h, List.take_append_drop]
  by_cases h1 : 0 < s
  · by_cases h2 : e < T.length
    · simp only [if_pos h1, if_pos h2, List.map_append, List.map_cons, List.map_nil,
        List.flatten_append, List.flatten_cons, List.flatten_nil, List.append_nil, hr]
      rw [List.append_assoc, key, List.take_append_drop]
    · simp only [if_pos h1, if_neg h2, List.map_append, List.map_cons, List.map_nil,
        List.flatten_append, List.flatten_cons, List.flatten_nil, List.append_nil, hr]
      rw [show (T.drop s).take (e - s) = T.drop s from
        List.take_of_length_le (by rw [List.length_drop]; omega), List.take_append_drop]
  · have hs0 : s = 0 := by omega
    subst hs0
    by_cases h2 : e < T.length
    · simp only [if_neg h1, if_pos h2, List.map_append, List.map_cons, List.map_nil,
        List.flatten_append, List.flatten_cons, List.flatten_nil, List.append_nil,
        List.nil_append, hr, List.drop_zero, Nat.sub_zero]
      exact List.take_append_drop e T
    · simp only [if_neg h1, if_neg h2, List.map_append, List.map_cons, List.map_nil,
        List.flatten_append, List.flatten_cons, List.flatten_nil, List.append_nil,
        List.nil_append, hr, List.drop_zero, Nat.sub_zero]
      exact List.take_of_length_le (by omega)

/-- The rebuilt paragraph's visible text is the original text. -/
theorem fmtPara_text (p : Para) (s e : Nat) (hs : s < e) (he : e ≤ p.text.length)
    (b it u : Option Bool) (c : Option PyStr) (fs : Option Int) (fn : Option String) :
    (fmtPara p s e b it u c fs fn).text = p.text := by
  have h := three_runs_text p.text s e hs he (fmtMidRun p.text s e b it u c fs fn) rfl
  simpa [fmtPara, Para.text] using h

/-- C5: for a valid range `0 ≤ start < end ≤ len(T)`, `format_text`
keeps the paragraph's visible text equal to `T` and rebuilds its runs as
at most three — an unformatted `T[0:start]` (omitted when empty), the
overridden `T[start:end]`, and an unformatted `T[end:]` (omitted when
empty). -/
theorem format_text_rebuilds_range (st : ServerState) (d : Doc)
    (hcur : st.current_doc = some d) (i : Nat) (hi : i < d.paragraphs.length)
    (s e : Nat) (hs : s < e) (he : e ≤ (d.paragraphs.getD i {}).text.length)
    (b it u : Option Bool) (c : Option PyStr) (fs : Option Int) (fn : Option String) :
    ((format_text st none (some (i : Int)) (s : Int) (some (e : Int)) b it u c fs fn).2.current_doc =
      some { d with
        paragraphs := d.paragraphs.set i (fmtPara (d.paragraphs.getD i {}) s e b it u c fs fn) }) ∧
    (fmtPara (d.paragraphs.getD i {}) s e b it u c fs fn).text = (d.paragraphs.getD i {}).text := by
  obtain ⟨msg, hcore⟩ := format_text_core_valid d i hi s e hs he b it u c fs fn
  exact ⟨runMutatingTool_current st d _ msg _ hcur hcore, fmtPara_text _ s e hs he b it u c fs fn⟩

end DocxEditor

namespace DocxEditor

theorem int_if_min (a b : Int) : (if a < b then a else b) = min a b := by
  split <;> omega

theorem format_text_core_end_clamp (d : Doc) (pi s e : Int) (b it u : Option Bool)
    (c : Option PyStr) (fs : Option Int) (fn : Option String) :
    format_text_core d (some pi) s (some e) b it u c fs fn =
      format_text_core d (some pi) s
        (some (min (((d.paragraphs.getD pi.toNat {}).text.length : Nat) : Int) e))
        b it u c fs fn := by
  by_cases hbound : pi < 0 ∨ (d.paragraphs.length : Int) ≤ pi
  · simp only [format_text_core, if_pos hbound]
  · simp only [format_text_core, if_neg hbound, int_if_min]
    rw [show min (((d.paragraphs.getD pi.toNat {}).text.length : Nat) : Int)
        (min (((d.paragraphs.getD pi.toNat {}).text.length : Nat) : Int) e) =
        min (((d.paragraphs.getD pi.toNat {}).text.length : Nat) : Int) e from by omega]

/-- C6: `end_pos` is clamped to the text length (calling with `end_pos`
behaves exactly like calling with `min len end_pos`), and a call with an
out-of-range `paragraph_index`, a negative `start_pos`, or
`start_pos >= end_pos` after clamping fails with a validation error and
leaves the server state — hence the paragraph — unchanged. -/
theorem format_text_validation (st : ServerState) (d : Doc) (hcur : st.current_doc = some d)
    (pi s e : Int) (b it u : Option Bool) (c : Option PyStr) (fs : Option Int)
    (fn : Option String) :
    (format_text st none (some pi) s (some e) b it u c fs fn =
      format_text st none (some pi) s
        (some (min (((d.paragraphs.getD pi.toNat {}).text.length : Nat) : Int) e))
        b it u c fs fn) ∧
    (¬(0 ≤ pi ∧ pi < (d.paragraphs.length : Int)) →
      format_text st none (some pi) s (some e) b it u c fs fn =
        ("Invalid paragraph index.", st)) ∧
    (0 ≤ pi ∧ pi < (d.paragraphs.length : Int) →
      (s < 0 ∨ min (((d.paragraphs.getD pi.toNat {}).text.length : Nat) : Int) e ≤ s) →
      format_text st none (some pi) s (some e) b it u c fs fn =
        ("Invalid start_pos or end_pos.", st)) := by
  refine ⟨?_, ?_, ?_⟩
  · simp only [format_text, runMutatingTool, selectDoc, hcur, Option.map_some']
    rw [format_text_core_end_clamp d pi s e b it u c fs fn]
  · intro hbad
    have hbound : pi < 0 ∨ (d.paragraphs.length : Int) ≤ pi := by omega
    have hcore : format_text_core d (some pi) s (some e) b it u c fs fn =
        .error "Invalid paragraph index." := by
      simp only [format_text_core, if_pos hbound]
    exact runMutatingTool_error st d _ _ hcur hcore
  · intro hok hrange
    have hbound : ¬(pi < 0 ∨ (d.paragraphs.length : Int) ≤ pi) := by omega
    have hcore : format_text_core d (some pi) s (some e) b it u c fs fn =
        .error "Invalid start_pos or end_pos." := by
      simp only [format_text_core, if_neg hbound, int_if_min, if_pos hrange]
    exact runMutatingTool_error st d _ _ hcur hcore

end DocxEditor

namespace DocxEditor

theorem srParas_eq (f r : PyStr) :
    ∀ ps : List Para, srParas ps f r =
      (ps.map (srMap f r), (ps.filter (fun p => pyContains p.text f)).length) := by
  intro ps
  induction ps with
  | nil => simp [srParas]
  | cons p rest ih =>
    by_cases h : pyContains p.text f
    · simp [srParas, ih, h, srMap, List.filter_cons]
    · simp [srParas, ih, h, srMap, List.filter_cons]

theorem srList_eq {α : Type} (g : α → PyStr → PyStr → α × Nat) (m : α → α) (k : α → Nat)
    (f r : PyStr) (hg : ∀ x, g x f r = (m x, k x)) :
    ∀ xs : List α, srList g xs f r = (xs.map m, (xs.map k).sum) := by
  intro xs
  induction xs with
  | nil => simp [srList]
  | cons x rest ih => simp [srList, ih, hg x]

/-- Every paragraph the search visits, in visiting order: the body first,
then the table cells. -/
def allDocParas (d : Doc) : List Para := d.paragraphs ++ all_table_paras d

theorem count_filter_flatten {α : Type} (p : α → Bool) :
    ∀ L : List (List α),
      ((L.flatten).filter p).length = (L.map (fun l => (l.filter p).length)).sum := by
  intro L
  induction L with
  | nil => simp
  | cons l rest ih => simp [List.filter_append, ih, Function.comp_def]

/-- The whole-document effect of one search-and-replace pass: every
paragraph, in the body and in every table cell, goes through `srMap`. -/
def srDocMap (d : Doc) (f r : PyStr) : Doc :=
  { d with
    paragraphs := d.paragraphs.map (srMap f r),
    tables := d.tables.map (List.map (List.map (List.map (srMap f r)))) }

theorem search_and_replace_core_eq (d : Doc) (f r : PyStr) :
    search_and_replace_core d f r =
      (srDocMap d f r, ((allDocParas d).filter (fun p => pyContains p.text f)).length) := by
  have h1 : ∀ cell : Cell, srParas cell f r =
      (cell.map (srMap f r), (cell.filter (fun p => pyContains p.text f)).length) :=
    srParas_eq f r
  have h2 := srList_eq srParas (List.map (srMap f r))
    (fun cell => (cell.filter (fun p => pyContains p.text f)).length) f r h1
  have h3 := srList_eq (srList srParas)
    (List.map (List.map (srMap f r)))
    (fun row => (row.map fun cell => (cell.filter (fun p => pyContains p.text f)).length).sum)
    f r h2
  have h4 := srList_eq (srList (srList srParas))
    (List.map (List.map (List.map (srMap f r))))
    (fun t => (t.map fun row =>
      (row.map fun cell => (cell.filter (fun p => pyContains p.text f)).length).sum).sum)
    f r h3
  simp only [search_and_replace_core, srParas_eq f r, h4, srDocMap]
  refine Prod.ext rfl ?_
  simp only [allDocParas, all_table_paras, List.filter_append, List.length_append]
  congr 1
  simp [count_filter_flatten, List.map_map, Function.comp_def]

end DocxEditor

namespace DocxEditor

theorem mem_all_table_paras (d : Doc) (t : DocTable) (row : TableRow) (cell : Cell) (p : Para)
    (ht : t ∈ d.tables) (hrow : row ∈ t) (hcell : cell ∈ row) (hp : p ∈ cell) :
    p ∈ all_table_paras d := by
  simp only [all_table_paras, List.mem_flatten, List.mem_map]
  refine ⟨(t.map List.flatten).flatten, ⟨t, ht, rfl⟩, ?_⟩
  simp only [List.mem_flatten, List.mem_map]
  exact ⟨row.flatten, ⟨row, hrow, rfl⟩, List.mem_flatten.mpr ⟨cell, hcell, hp⟩⟩

theorem srDocMap_id (d : Doc) (f r : PyStr)
    (h : ∀ p ∈ allDocParas d, pyContains p.text f = false) : srDocMap d f r = d := by
  have hbody : ∀ p ∈ d.paragraphs, srMap f r p = p := by
    intro p hp
    have := h p (List.mem_append_left _ hp)
    simp [srMap, this]
  have htab : ∀ t ∈ d.tables, t.map (List.map (List.map (srMap f r))) = t := by
    intro t ht
    rw [show t.map (List.map (List.map (srMap f r))) = t.map id from ?_, List.map_id]
    refine List.map_congr_left fun row hrow => ?_
    rw [show row.map (List.map (srMap f r)) = row.map id from ?_, List.map_id]
    · rfl
    refine List.map_congr_left fun cell hcell => ?_
    rw [show cell.map (srMap f r) = cell.map id from ?_, List.map_id]
    · rfl
    refine List.map_congr_left fun p hp => ?_
    have := h p (List.mem_append_right _ (mem_all_table_paras d t row cell p ht hrow hcell hp))
    simp [srMap, this]
  show ({ d with
    paragraphs := d.paragraphs.map (srMap f r),
    tables := d.tables.map (List.map (List.map (List.map (srMap f r)))) } : Doc) = d
  have e1 : d.paragraphs.map (srMap f r) = d.paragraphs := by
    rw [show d.paragraphs.map (srMap f r) = d.paragraphs.map id from
      List.map_congr_left fun p hp => hbody p hp, List.map_id]
  have e2 : d.tables.map (List.map (List.map (List.map (srMap f r)))) = d.tables := by
    rw [show d.tables.map (List.map (List.map (List.map (srMap f r)))) = d.tables.map id from
      List.map_congr_left fun t ht => htab t ht, List.map_id]
  rw [e1, e2]

/-- C7: with a non-empty `find_text`, `search_and_replace` rewrites
exactly the paragraphs (body first, then every table cell's paragraphs)
whose text contains `find_text` — each has all runs discarded and
replaced by a single run holding the fully substituted text (`srMap`) —
and reports the number of paragraphs so modified, not the number of
occurrences; with no match it returns count 0 and the document is
unchanged. -/
theorem search_and_replace_spec (st : ServerState) (d : Doc) (hcur : st.current_doc = some d)
    (f r : PyStr) (hf : f ≠ []) :
    (search_and_replace_core d f r =
      (srDocMap d f r, ((allDocParas d).filter (fun p => pyContains p.text f)).length)) ∧
    ((∀ p ∈ allDocParas d, pyContains p.text f = false) →
      search_and_replace_core d f r = (d, 0)) ∧
    ((search_and_replace st none (some f) (some r)).2.current_doc =
      some (search_and_replace_core d f r).1) := by
  refine ⟨search_and_replace_core_eq d f r, ?_, ?_⟩
  · intro h
    rw [search_and_replace_core_eq d f r, srDocMap_id d f r h]
    have : (allDocParas d).filter (fun p => pyContains p.text f) = [] :=
      List.filter_eq_nil_iff.mpr fun p hp => by simp [h p hp]
    rw [this]
    rfl
  · have hgd : (some f).getD [] = f := rfl
    have hcore : (fun dd => if (some f).getD ([] : PyStr) = [] then
        (Except.error "find_text is required." : Except String (String × Doc))
      else
        let res := search_and_replace_core dd ((some f).getD []) ((some r).getD [])
        let ft := String.mk ((some f).getD [])
        let rt := String.mk ((some r).getD [])
        let n := res.2
        .ok (s!"Replaced '{ft}' with '{rt}' in {n} elements.", res.1)) d =
        .ok (s!"Replaced '{String.mk f}' with '{String.mk r}' in {(search_and_replace_core d f r).2} elements.",
          (search_and_replace_core d f r).1) := by
      simp only [Option.getD, if_neg hf]
    exact runMutatingTool_current st d _ _ _ hcur hcore

end DocxEditor

namespace DocxEditor

/-- A one-paragraph demonstration document and server state for the
concrete counterexamples. -/
def demoDoc : Doc :=
  { freshDoc with paragraphs := [{ runs := [{ text := "Hello world".data }] }] }

def demoState : ServerState :=
  { current_doc := some demoDoc, current_doc_path := some "doc.docx", files := [] }

/-- C8 counterexample: with neither `target_text` nor
`target_paragraph_index` supplied (and the content argument present),
`insert_line_or_paragraph_near_text` does *not* fail with a
required-argument error — it reports `Target paragraph not found.`, the
very same message an unmatched anchor produces, so the two situations
are not reported distinctly. -/
theorem insert_missing_target_counterexample :
    (insert_line_or_paragraph_near_text demoState none none (some "New".data) "after"
      none none).1 = "Target paragraph not found." ∧
    (insert_line_or_paragraph_near_text demoState none (some "zzz".data) (some "New".data)
      "after" none none).1 = "Target paragraph not found." := by
  constructor <;> rfl

/-- C8 amended: when neither anchor argument is supplied the resolver
returns `-1` and each insertion tool reports the resolution-failure
message `Target paragraph not found.` (identical to the unmatched-anchor
message), with the state unchanged; the required-argument errors concern
only the content argument (`header_title` / `line_text` / `list_items`)
and are issued before resolution. -/
theorem insert_missing_target_resolution (st : ServerState) (d : Doc)
    (hcur : st.current_doc = some d) (t : PyStr) (ht : t ≠ []) (items : List PyStr)
    (hitems : items ≠ []) (pos : String) (hs : String) (ls : Option String) (bt : String) :
    find_paragraph_index d none none = -1 ∧
    insert_header_near_text st none none (some t) pos hs none =
      ("Target paragraph not found.", st) ∧
    insert_line_or_paragraph_near_text st none none (some t) pos ls none =
      ("Target paragraph not found.", st) ∧
    insert_numbered_list_near_text st none none items pos none bt =
      ("Target paragraph not found.", st) ∧
    insert_header_near_text st none none none pos hs none =
      ("header_title is required.", st) ∧
    insert_line_or_paragraph_near_text st none none none pos ls none =
      ("line_text is required.", st) ∧
    insert_numbered_list_near_text st none none [] pos none bt =
      ("list_items is required.", st) := by
  refine ⟨rfl, ?_, ?_, ?_, ?_, ?_, ?_⟩
  · exact runMutatingTool_error st d _ _ hcur (by
      simp [insert_header_core, find_paragraph_index, ht])
  · exact runMutatingTool_error st d _ _ hcur (by
      simp [insert_line_core, find_paragraph_index, ht])
  · exact runMutatingTool_error st d _ _ hcur (by
      simp [insert_numbered_list_core, find_paragraph_index, hitems])
  · exact runMutatingTool_error st d _ _ hcur (by simp [insert_header_core])
  · exact runMutatingTool_error st d _ _ hcur (by simp [insert_line_core])
  · exact runMutatingTool_error st d _ _ hcur (by simp [insert_numbered_list_core])

/-- The empty pattern is a substring of every string (Python's
`"" in s`). -/
theorem pyContains_nil (l : PyStr) : pyContains l [] = true := by
  cases l <;> simp [pyContains, pyStartsWith]

/-- C10: an empty `target_text` (with no explicit index) is treated as
absent — the resolver answers `-1` even though the empty string is a
substring of every paragraph's text — and the insertion tools report
`Target paragraph not found.` instead of resolving to paragraph 0. -/
theorem empty_target_text_not_found (st : ServerState) (d : Doc)
    (hcur : st.current_doc = some d) (items : List PyStr) (hitems : items ≠ []) :
    find_paragraph_index d (some []) none = -1 ∧
    (∀ p ∈ d.paragraphs, pyContains p.text [] = true) ∧
    insert_numbered_list_near_text st none (some []) items "after" none "bullet" =
      ("Target paragraph not found.", st) := by
  refine ⟨by simp [find_paragraph_index], fun p _ => pyContains_nil p.text, ?_⟩
  exact runMutatingTool_error st d _ _ hcur (by
    simp [insert_numbered_list_core, find_paragraph_index, hitems])

end DocxEditor

namespace DocxEditor

theorem getFile_putFile (st : ServerState) (f : String) (d : Doc) :
    getFile (putFile st f d) f = some d := by
  simp [getFile, putFile]

theorem insert_header_core_resolved (d : Doc) (title : PyStr) (ht : title ≠ []) (i : Nat)
    (hi : i < d.paragraphs.length) (hs pos : String) :
    ∃ msg, insert_header_core d none (some title) pos hs (some (i : Int)) =
      match insertBlocksAt d i [title] pos (some hs) with
      | some d' => .ok (msg, d')
      | none => .error "Invalid position. Use 'before' or 'after'." := by
  have hne : ¬((i : Int) = -1) := by omega
  simp only [insert_header_core, Option.getD_some, if_neg ht,
    find_paragraph_index_valid d none i hi, if_neg hne, Int.toNat_natCast]
  exact ⟨_, rfl⟩

/-- C3 counterexample: calling `insert_header_near_text` with a filename
that does not exist does *not* fail without side effects — it silently
falls back to the current document, mutates it, and saves it under the
missing filename (creating the file). -/
theorem file_not_found_side_effect_counterexample :
    ((insert_header_near_text demoState (some "missing.docx") none (some "T".data) "after"
      "Heading 1" (some 0)).2.current_doc ≠ demoState.current_doc) ∧
    (getFile (insert_header_near_text demoState (some "missing.docx") none (some "T".data)
      "after" "Heading 1" (some 0)).2 "missing.docx").isSome = true := by
  constructor
  · decide
  · rfl

/-- C3 amended: when the named file does not exist, the extraction
operations report the file-not-found error with no side effect, but the
anchored-mutation operations (here `insert_header_near_text`) instead
fall back to the current document, mutate it in place, and save the
result under the missing filename. -/
theorem file_not_found_behaviour (st : ServerState) (f : String) (h : getFile st f = none)
    (all_styles : Bool) (d : Doc) (hcur : st.current_doc = some d) (title : PyStr)
    (ht : title ≠ []) (i : Nat) (hi : i < d.paragraphs.length) :
    extract_document_parameters st (some f) all_styles = (.error s!"File not found: {f}", st) ∧
    ∃ d', (insert_header_near_text st (some f) none (some title) "after" "Heading 1"
        (some (i : Int))).2.current_doc = some d' ∧
      getFile (insert_header_near_text st (some f) none (some title) "after" "Heading 1"
        (some (i : Int))).2 f = some d' ∧
      d'.paragraphs.length = d.paragraphs.length + 1 := by
  constructor
  · simp [extract_document_parameters, h]
  · obtain ⟨msg, hcore0⟩ := insert_header_core_resolved d title ht i hi "Heading 1" "after"
    have hsel : selectDoc st (some f) = some (d, false) := by
      simp [selectDoc, h, hcur]
    by_cases hnext : i + 1 < d.paragraphs.length
    · rw [show insertBlocksAt d i [title] "after" (some "Heading 1") =
          some { d with paragraphs := d.paragraphs.take (i + 1) ++
            [mkParagraph title (some "Heading 1")] ++ d.paragraphs.drop (i + 1) } from by
        simp [insertBlocksAt, insertBeforeLoop_eq, hnext]] at hcore0
      refine ⟨{ d with paragraphs := d.paragraphs.take (i + 1) ++
        [mkParagraph title (some "Heading 1")] ++ d.paragraphs.drop (i + 1) }, ?_, ?_, ?_⟩
      · simp [insert_header_near_text, runMutatingTool, hsel, hcore0, commitDoc, putFile]
      · simp [insert_header_near_text, runMutatingTool, hsel, hcore0, commitDoc, getFile_putFile]
      · simp only [List.length_append, List.length_take, List.length_drop,
          List.length_cons, List.length_nil]
        omega
    · rw [show insertBlocksAt d i [title] "after" (some "Heading 1") =
          some { d with paragraphs := d.paragraphs ++ [mkParagraph title (some "Heading 1")] } from by
        simp [insertBlocksAt, addParagraphLoop_eq, hnext]] at hcore0
      refine ⟨{ d with
        paragraphs := d.paragraphs ++ [mkParagraph title (some "Heading 1")] }, ?_, ?_, ?_⟩
      · simp [insert_header_near_text, runMutatingTool, hsel, hcore0, commitDoc, putFile]
      · simp [insert_header_near_text, runMutatingTool, hsel, hcore0, commitDoc, getFile_putFile]
      · simp only [List.length_append, List.length_cons, List.length_nil]

end DocxEditor

namespace DocxEditor

theorem apply_style_info_name (s : Style) (info : StyleInfo) :
    (apply_style_info s info).name = s.name := by
  cases hf : info.font <;> cases hp : info.paragraph_format <;>
    simp [apply_style_info, hf, hp]

theorem set_style_map_name (n : String) (s' : Style) (h : s'.name = n) :
    ∀ l : List Style, (set_style l n s').map Style.name = l.map Style.name := by
  intro l
  induction l with
  | nil => rfl
  | cons s rest ih =>
    by_cases hs : s.name == n
    · simp only [set_style, if_pos hs, List.map_cons]
      rw [h, (by simpa using hs : s.name = n)]
    · simp only [set_style, if_neg hs, List.map_cons, ih]

theorem find_isSome_congr :
    ∀ (l l' : List Style), l.map Style.name = l'.map Style.name →
      ∀ m : String,
        (l.find? (fun s => s.name == m)).isSome = (l'.find? (fun s => s.name == m)).isSome := by
  intro l
  induction l with
  | nil =>
    intro l' h m
    cases l' with
    | nil => rfl
    | cons s' rest' => simp at h
  | cons s rest ih =>
    intro l' h m
    cases l' with
    | nil => simp at h
    | cons s' rest' =>
      simp only [List.map_cons, List.cons.injEq] at h
      by_cases hb : s'.name == m
      · simp [List.find?_cons, h.1, hb]
      · simp [List.find?_cons, h.1, hb, ih rest' h.2 m]

theorem applyStylesList_count_aux (entries : List (String × StyleInfo)) :
    ∀ (doc : Doc) (n : Nat),
      (entries.foldl
        (fun acc e =>
          match lookupStyle acc.1 e.1 with
          | none => acc
          | some s =>
            ({ acc.1 with styles := set_style acc.1.styles e.1 (apply_style_info s e.2) },
              acc.2 + 1)) (doc, n)).2 =
      n + (entries.filter (fun e => (lookupStyle doc e.1).isSome)).length := by
  induction entries with
  | nil =>
    intro doc n
    simp
  | cons e rest ih =>
    intro doc n
    rw [List.foldl_cons, List.filter_cons]
    cases hl : lookupStyle doc e.1 with
    | none =>
      simp only [hl, Option.isSome_none, Bool.false_eq_true, if_false]
      exact ih doc n
    | some s =>
      have hname : (apply_style_info s e.2).name = e.1 := by
        rw [apply_style_info_name]
        simpa using List.find?_some hl
      have hnames : ∀ m : String,
          (lookupStyle { doc with
            styles := set_style doc.styles e.1 (apply_style_info s e.2) } m).isSome =
          (lookupStyle doc m).isSome := by
        intro m
        exact find_isSome_congr _ _ (set_style_map_name e.1 _ hname doc.styles) m
      simp only [hl, Option.isSome_some, if_true]
      rw [ih]
      rw [List.filter_congr (fun x _ => hnames x.1), List.length_cons]
      omega

/-- C2 counterexample: the extractor's own snapshot of the fresh document
contains the single paragraph-style entry `("Normal", {})` — a style with
no recorded font or paragraph-format change — yet applying it yields
`stylesAppliedCount = 1` while changing nothing, where the claim demands
the count 0. -/
theorem styles_applied_count_counterexample :
    (extract_document_parameters_core freshDoc false).styles =
      { paragraph_styles := [("Normal", {})] } ∧
    (apply_styles_from_params freshDoc { paragraph_styles := [("Normal", {})] }).2 = 1 ∧
    claimedStylesAppliedCount freshDoc { paragraph_styles := [("Normal", {})] } = 0 ∧
    (apply_styles_from_params freshDoc { paragraph_styles := [("Normal", {})] }).1 =
      freshDoc := by
  refine ⟨by decide, by decide, by decide, by decide⟩

/-- C2 amended: `stylesAppliedCount` equals the number of entries of the
snapshot's `paragraph_styles` map whose name exists in the fresh
document's style set, whether or not the entry carries any font or
paragraph-format change; entries of the character/table/list style maps
are never processed or counted.  (In the typed snapshot model no
application step raises, so the exception arm never subtracts.) -/
theorem styles_applied_count_spec (doc : Doc) (sp : StylesInfo) :
    (apply_styles_from_params doc sp).2 =
      (sp.paragraph_styles.filter (fun e => (lookupStyle doc e.1).isSome)).length := by
  have h := applyStylesList_count_aux sp.paragraph_styles doc 0
  simpa [apply_styles_from_params, applyStylesList] using h

end DocxEditor

namespace DocxEditor

/-- The two skip conditions of the `for style in doc.styles:` loop, as
one predicate: kept iff not hidden-excluded and not unused-excluded. -/
def styleKept (used : List String) (only_used exclude_hidden : Bool) (s : Style) : Bool :=
  !(exclude_hidden && s.hidden) && !(only_used && !(used.contains s.name))

/-- The entries one category of the styles map receives. -/
def entriesOf (l : List Style) (pred : Style → Bool) (ty : StyleType) :
    List (String × StyleInfo) :=
  (l.filter fun s => pred s && s.styleType == ty).map fun s => (s.name, style_info_of s)

theorem extract_styles_foldl (used : List String) (ou eh : Bool) :
    ∀ (l : List Style) (acc : StylesInfo),
      l.foldl (extractStylesStep used ou eh) acc =
        { paragraph_styles := acc.paragraph_styles ++ entriesOf l (styleKept used ou eh) .paragraph,
          character_styles := acc.character_styles ++ entriesOf l (styleKept used ou eh) .character,
          table_styles := acc.table_styles ++ entriesOf l (styleKept used ou eh) .table,
          list_styles := acc.list_styles ++ entriesOf l (styleKept used ou eh) .list } := by
  intro l
  induction l with
  | nil =>
    intro acc
    simp [entriesOf]
  | cons s rest ih =>
    intro acc
    rw [List.foldl_cons]
    by_cases h1 : (eh && s.hidden) = true
    · have hk : styleKept used ou eh s = false := by
        simp only [styleKept, h1]
        rfl
      rw [show extractStylesStep used ou eh acc s = acc from by
        simp only [extractStylesStep, if_pos h1]]
      rw [ih acc]
      simp [entriesOf, List.filter_cons, hk]
    · by_cases h2 : (ou && !(used.contains s.name)) = true
      · have hk : styleKept used ou eh s = false := by
          have h1' : (eh && s.hidden) = false := by simpa using h1
          simp only [styleKept, h1', h2]
          rfl
        rw [show extractStylesStep used ou eh acc s = acc from by
          simp only [extractStylesStep, if_neg h1, if_pos h2]]
        rw [ih acc]
        simp [entriesOf, List.filter_cons, hk]
      · have hk : styleKept used ou eh s = true := by
          have h1' : (eh && s.hidden) = false := by simpa using h1
          have h2' : (ou && !(used.contains s.name)) = false := by
            rcases Bool.eq_false_or_eq_true (ou && !(used.contains s.name)) with hb | hb
            · exact absurd hb h2
            · exact hb
          simp only [styleKept, h1', h2']
          rfl
        have hstep : extractStylesStep used ou eh acc s =
            match s.styleType with
            | .paragraph =>
              { acc with paragraph_styles := acc.paragraph_styles ++ [(s.name, style_info_of s)] }
            | .character =>
              { acc with character_styles := acc.character_styles ++ [(s.name, style_info_of s)] }
            | .table =>
              { acc with table_styles := acc.table_styles ++ [(s.name, style_info_of s)] }
            | .list =>
              { acc with list_styles := acc.list_styles ++ [(s.name, style_info_of s)] } := by
          simp only [extractStylesStep, if_neg h1, if_neg h2]
        cases hty : s.styleType <;>
          rw [hstep, hty, ih] <;>
          simp [entriesOf, List.filter_cons, hk, hty]

end DocxEditor

namespace DocxEditor

/-- A font whose attributes are all at their defaults (in the
extractor's sense: empty or falsy name/size/colour, `bold`/`italic`
not `True`, `underline` neither `True` nor an underline style) produces
an empty font block. -/
theorem font_info_of_default (f : DocFont)
    (hn : f.name = none ∨ f.name = some "") (hs : f.size = none ∨ f.size = some 0)
    (hb : f.bold ≠ some true) (hi : f.italic ≠ some true) (hu : f.underline ≠ some true)
    (hc : f.color = none ∨ f.color = some 0) :
    font_info_of f = {} := by
  simp only [font_info_of, truthyLen, FontInfo.mk.injEq]
  refine ⟨?_, ?_, ?_, ?_, ?_, ?_⟩
  · rcases hn with h | h <;> simp [h]
  · rcases hs with h | h <;> simp [h]
  · simp [hb]
  · simp [hi]
  · simp [hu]
  · rcases hc with h | h <;> simp [h]

/-- A paragraph format whose attributes are all at their defaults
(unset or falsy alignment — LEFT is the integer 0 —, line spacing unset,
zero or `1.0`, zero lengths) produces an empty paragraph-format block. -/
theorem para_fmt_info_of_default (pf : DocParaFmt)
    (ha : pf.alignment = none ∨ pf.alignment = some .left)
    (hl : pf.line_spacing = none ∨ pf.line_spacing = some 0 ∨ pf.line_spacing = some 1)
    (hsb : pf.space_before = none ∨ pf.space_before = some 0)
    (hsa : pf.space_after = none ∨ pf.space_after = some 0)
    (hfi : pf.first_line_indent = none ∨ pf.first_line_indent = some 0)
    (hli : pf.left_indent = none ∨ pf.left_indent = some 0)
    (hri : pf.right_indent = none ∨ pf.right_indent = some 0) :
    para_fmt_info_of pf = {} := by
  simp only [para_fmt_info_of, truthyLen, ParaFmtInfo.mk.injEq]
  refine ⟨?_, ?_, ?_, ?_, ?_, ?_, ?_⟩
  · rcases ha with h | h <;> simp [h]
  · rcases hl with h | h | h <;> simp [h]
  · rcases hsb with h | h <;> simp [h]
  · rcases hsa with h | h <;> simp [h]
  · rcases hfi with h | h <;> simp [h]
  · rcases hli with h | h <;> simp [h]
  · rcases hri with h | h <;> simp [h]

end DocxEditor

namespace DocxEditor

/-- C9: with `all_styles=False` (`only_used=True`; `exclude_hidden` is
always `True`), each category of the styles snapshot is exactly the
document's styles filtered by the kept-predicate — not hidden, and (when
`only_used`) referenced by name from a body paragraph or a table-cell
paragraph — in document order; every emitted entry originates from such
a style; `bold`/`italic` are recorded only as `True`, `line_spacing`
only when truthy and different from `1.0`; and a style with every
attribute at its default gets no `font` and no `paragraph_format`
sub-object at all. -/
theorem extract_styles_filter_minimality (doc : Doc) (ou : Bool) (s : Style) :
    ((extract_styles_info doc ou true).paragraph_styles =
      entriesOf doc.styles (styleKept (used_style_names doc) ou true) .paragraph ∧
    (extract_styles_info doc ou true).character_styles =
      entriesOf doc.styles (styleKept (used_style_names doc) ou true) .character ∧
    (extract_styles_info doc ou true).table_styles =
      entriesOf doc.styles (styleKept (used_style_names doc) ou true) .table ∧
    (extract_styles_info doc ou true).list_styles =
      entriesOf doc.styles (styleKept (used_style_names doc) ou true) .list) ∧
    (∀ ty : StyleType, ∀ e ∈ entriesOf doc.styles (styleKept (used_style_names doc) ou true) ty,
      ∃ st ∈ doc.styles, st.hidden = false ∧ (ou = true → st.name ∈ used_style_names doc) ∧
        e = (st.name, style_info_of st)) ∧
    (∀ fi, (style_info_of s).font = some fi →
      (fi.bold = none ∨ fi.bold = some true) ∧ (fi.italic = none ∨ fi.italic = some true)) ∧
    (∀ pi, (style_info_of s).paragraph_format = some pi →
      ∀ v, pi.line_spacing = some v → v ≠ 1 ∧ v ≠ 0) ∧
    ((s.font.name = none ∨ s.font.name = some "") →
      (s.font.size = none ∨ s.font.size = some 0) →
      s.font.bold ≠ some true → s.font.italic ≠ some true → s.font.underline ≠ some true →
      (s.font.color = none ∨ s.font.color = some 0) →
      (s.pf.alignment = none ∨ s.pf.alignment = some .left) →
      (s.pf.line_spacing = none ∨ s.pf.line_spacing = some 0 ∨ s.pf.line_spacing = some 1) →
      (s.pf.space_before = none ∨ s.pf.space_before = some 0) →
      (s.pf.space_after = none ∨ s.pf.space_after = some 0) →
      (s.pf.first_line_indent = none ∨ s.pf.first_line_indent = some 0) →
      (s.pf.left_indent = none ∨ s.pf.left_indent = some 0) →
      (s.pf.right_indent = none ∨ s.pf.right_indent = some 0) →
      (style_info_of s).font = none ∧ (style_info_of s).paragraph_format = none) := by
  have hfold := extract_styles_foldl (used_style_names doc) ou true doc.styles {}
  refine ⟨?_, ?_, ?_, ?_, ?_⟩
  · rw [show extract_styles_info doc ou true =
      doc.styles.foldl (extractStylesStep (used_style_names doc) ou true) {} from rfl, hfold]
    simp
  · intro ty e he
    simp only [entriesOf, List.mem_map, List.mem_filter] at he
    obtain ⟨st, ⟨hmem, hcond⟩, rfl⟩ := he
    rw [Bool.and_eq_true] at hcond
    obtain ⟨hkept, -⟩ := hcond
    rw [styleKept, Bool.and_eq_true] at hkept
    obtain ⟨hk1, hk2⟩ := hkept
    refine ⟨st, hmem, by simpa using hk1, ?_, rfl⟩
    intro hou
    subst hou
    simpa [List.contains] using hk2
  · intro fi hfi
    by_cases hne : font_info_of s.font ≠ ({} : FontInfo)
    · rw [show (style_info_of s).font = some (font_info_of s.font) from by
        simp [style_info_of, hne]] at hfi
      obtain rfl : font_info_of s.font = fi := by injection hfi
      constructor
      · by_cases hb : s.font.bold = some true <;> simp [font_info_of, hb]
      · by_cases hb : s.font.italic = some true <;> simp [font_info_of, hb]
    · rw [show (style_info_of s).font = none from by
        simp only [not_not] at hne
        simp [style_info_of, hne]] at hfi
      exact absurd hfi (by simp)
  · intro pi hpi v hv
    by_cases hne : para_fmt_info_of s.pf ≠ ({} : ParaFmtInfo)
    · rw [show (style_info_of s).paragraph_format = some (para_fmt_info_of s.pf) from by
        simp [style_info_of, hne]] at hpi
      obtain rfl : para_fmt_info_of s.pf = pi := by injection hpi
      cases hls : s.pf.line_spacing with
      | none => simp [para_fmt_info_of, hls] at hv
      | some w =>
        simp only [para_fmt_info_of, hls, Option.some_bind] at hv
        by_cases hw : w ≠ 0 ∧ w ≠ 1
        · rw [if_pos hw] at hv
          obtain rfl : w = v := by injection hv
          exact ⟨hw.2, hw.1⟩
        · rw [if_neg hw] at hv
          exact absurd hv (by simp)
    · rw [show (style_info_of s).paragraph_format = none from by
        simp only [not_not] at hne
        simp [style_info_of, hne]] at hpi
      exact absurd hpi (by simp)
  · intro hn hs hb hi hu hc ha hl hsb hsa hfi hli hri
    have hf := font_info_of_default s.font hn hs hb hi hu hc
    have hp := para_fmt_info_of_default s.pf ha hl hsb hsa hfi hli hri
    constructor <;> simp [style_info_of, hf, hp]

end DocxEditor

namespace DocxEditor

/-- Invariant of every document built through the block-insertion and
style-creation operations: the sections and core properties are the fresh
document's, and the style set is the built-in styles followed by created
styles whose names clash with no built-in name. -/
def ReachInv (d : Doc) : Prop :=
  d.sections = freshDoc.sections ∧
  d.core_properties = freshDoc.core_properties ∧
  ∃ extras : List Style, d.styles = freshStyles ++ extras ∧
    ∀ e ∈ extras, e.name ∉ builtinStyleNames

theorem insertBlocksAt_fields (doc : Doc) (i : Nat) (items : List PyStr) (pos : String)
    (sty : Option String) (d' : Doc) (h : insertBlocksAt doc i items pos sty = some d') :
    d'.tables = doc.tables ∧ d'.styles = doc.styles ∧ d'.sections = doc.sections ∧
      d'.core_properties = doc.core_properties := by
  simp only [insertBlocksAt] at h
  split at h
  · obtain rfl := Option.some.inj h
    exact ⟨rfl, rfl, rfl, rfl⟩
  · split at h
    · split at h
      · obtain rfl := Option.some.inj h
        exact ⟨rfl, rfl, rfl, rfl⟩
      · obtain rfl := Option.some.inj h
        exact ⟨rfl, rfl, rfl, rfl⟩
    · exact absurd h (by simp)

theorem insert_header_core_fields (doc : Doc) (tt ht : Option PyStr) (pos hs : String)
    (tpi : Option Int) (msg : String) (d' : Doc)
    (h : insert_header_core doc tt ht pos hs tpi = .ok (msg, d')) :
    d'.tables = doc.tables ∧ d'.styles = doc.styles ∧ d'.sections = doc.sections ∧
      d'.core_properties = doc.core_properties := by
  simp only [insert_header_core] at h
  split at h
  · exact absurd h (by simp)
  · split at h
    · exact absurd h (by simp)
    · split at h
      · rename_i dd heq
        have h3 : dd = d' := congrArg Prod.snd (Except.ok.inj h)
        subst h3
        exact insertBlocksAt_fields doc _ _ pos (some hs) _ heq
      · exact absurd h (by simp)

end DocxEditor

namespace DocxEditor

theorem insert_line_core_fields (doc : Doc) (tt lt : Option PyStr) (pos : String)
    (ls : Option String) (tpi : Option Int) (msg : String) (d' : Doc)
    (h : insert_line_core doc tt lt pos ls tpi = .ok (msg, d')) :
    d'.tables = doc.tables ∧ d'.styles = doc.styles ∧ d'.sections = doc.sections ∧
      d'.core_properties = doc.core_properties := by
  simp only [insert_line_core] at h
  split at h
  · exact absurd h (by simp)
  · split at h
    · exact absurd h (by simp)
    · split at h
      · rename_i dd heq
        have h3 : dd = d' := congrArg Prod.snd (Except.ok.inj h)
        subst h3
        exact insertBlocksAt_fields doc _ _ pos ls _ heq
      · exact absurd h (by simp)

theorem insert_numbered_list_core_fields (doc : Doc) (tt : Option PyStr)
    (items : List PyStr) (pos : String) (tpi : Option Int) (bt : String) (msg : String)
    (d' : Doc) (h : insert_numbered_list_core doc tt items pos tpi bt = .ok (msg, d')) :
    d'.tables = doc.tables ∧ d'.styles = doc.styles ∧ d'.sections = doc.sections ∧
      d'.core_properties = doc.core_properties := by
  simp only [insert_numbered_list_core] at h
  split at h
  · exact absurd h (by simp)
  · split at h
    · exact absurd h (by simp)
    · split at h
      · rename_i dd heq
        have h3 : dd = d' := congrArg Prod.snd (Except.ok.inj h)
        subst h3
        exact insertBlocksAt_fields doc _ _ pos _ _ heq
      · exact absurd h (by simp)

theorem create_custom_style_core_ok (doc : Doc) (sn : Option String) (b i : Option Bool)
    (fs : Option Int) (fn : Option String) (c : Option PyStr) (bs : String) (msg : String)
    (d' : Doc) (h : create_custom_style_core doc sn b i fs fn c bs = .ok (msg, d')) :
    d'.paragraphs = doc.paragraphs ∧ d'.tables = doc.tables ∧ d'.sections = doc.sections ∧
      d'.core_properties = doc.core_properties ∧
      ∃ st : Style, d'.styles = doc.styles ++ [st] ∧ lookupStyle doc st.name = none := by
  simp only [create_custom_style_core] at h
  split at h
  · exact absurd h (by simp)
  · rename_i sname
    split at h
    · exact absurd h (by simp)
    · split at h
      · exact absurd h (by simp)
      · split at h
        · exact absurd h (by simp)
        · rename_i hdup hbase
          have hpair := Except.ok.inj h
          injection hpair with hm hd
          subst hd
          refine ⟨rfl, rfl, rfl, rfl, _, rfl, ?_⟩
          rw [Option.not_isSome_iff_eq_none] at hdup
          exact hdup

end DocxEditor

namespace DocxEditor

theorem runBuildOp_inv (d : Doc) (op : BuildOp) (hinv : ReachInv d) :
    ReachInv (runBuildOp d op) := by
  obtain ⟨hsec, hcp, extras, hstyles, hex⟩ := hinv
  cases op with
  | createStyle sn b i fs fn c bs =>
    simp only [runBuildOp]
    cases hc : create_custom_style_core d sn b i fs fn c bs with
    | error e => exact ⟨hsec, hcp, extras, hstyles, hex⟩
    | ok md =>
      obtain ⟨hp, ht, hse, hcpr, st, hsty, hlk⟩ :=
        create_custom_style_core_ok d sn b i fs fn c bs md.1 md.2 hc
      refine ⟨hse.trans hsec, hcpr.trans hcp, extras ++ [st], ?_, ?_⟩
      · rw [hsty, hstyles, List.append_assoc]
      · intro e he
        rcases List.mem_append.mp he with he | he
        · exact hex e he
        · obtain rfl : e = st := by simpa using he
          intro hmem
          obtain ⟨t, htmem, htname⟩ := List.mem_map.mp hmem
          have htd : t ∈ d.styles := by
            rw [hstyles]
            exact List.mem_append_left _ htmem
          have hnone := List.find?_eq_none.mp hlk t htd
          simp [htname] at hnone
  | insertHeader tt hdr pos hs tpi =>
    simp only [runBuildOp]
    cases hc : insert_header_core d tt hdr pos hs tpi with
    | error e => exact ⟨hsec, hcp, extras, hstyles, hex⟩
    | ok md =>
      obtain ⟨ht, hsty, hse, hcpr⟩ :=
        insert_header_core_fields d tt hdr pos hs tpi md.1 md.2 hc
      exact ⟨hse.trans hsec, hcpr.trans hcp, extras, hsty.trans hstyles, hex⟩
  | insertLine tt lt pos ls tpi =>
    simp only [runBuildOp]
    cases hc : insert_line_core d tt lt pos ls tpi with
    | error e => exact ⟨hsec, hcp, extras, hstyles, hex⟩
    | ok md =>
      obtain ⟨ht, hsty, hse, hcpr⟩ :=
        insert_line_core_fields d tt lt pos ls tpi md.1 md.2 hc
      exact ⟨hse.trans hsec, hcpr.trans hcp, extras, hsty.trans hstyles, hex⟩
  | insertList tt items pos tpi bt =>
    simp only [runBuildOp]
    cases hc : insert_numbered_list_core d tt items pos tpi bt with
    | error e => exact ⟨hsec, hcp, extras, hstyles, hex⟩
    | ok md =>
      obtain ⟨ht, hsty, hse, hcpr⟩ :=
        insert_numbered_list_core_fields d tt items pos tpi bt md.1 md.2 hc
      exact ⟨hse.trans hsec, hcpr.trans hcp, extras, hsty.trans hstyles, hex⟩

theorem runBuild_inv (ops : List BuildOp) : ReachInv (runBuild ops) := by
  have base : ReachInv freshDoc := ⟨rfl, rfl, [], by simp [freshDoc], by simp⟩
  rw [runBuild]
  generalize freshDoc = d0 at base ⊢
  induction ops generalizing d0 with
  | nil => exact base
  | cons op rest ih => exact ih (runBuildOp d0 op) (runBuildOp_inv d0 op base)

end DocxEditor

namespace DocxEditor

theorem docFieldsEq {a b : Doc} (h1 : a.paragraphs = b.paragraphs) (h2 : a.tables = b.tables)
    (h3 : a.styles = b.styles) (h4 : a.sections = b.sections)
    (h5 : a.core_properties = b.core_properties) : a = b := by
  cases a
  cases b
  simp_all

theorem applyStylesList_fields (entries : List (String × StyleInfo)) :
    ∀ (doc : Doc),
      ((applyStylesList doc entries).1.paragraphs = doc.paragraphs ∧
       (applyStylesList doc entries).1.tables = doc.tables) ∧
      (applyStylesList doc entries).1.sections = doc.sections ∧
      (applyStylesList doc entries).1.core_properties = doc.core_properties := by
  suffices h : ∀ (doc : Doc) (n : Nat),
      ((entries.foldl
        (fun acc e =>
          match lookupStyle acc.1 e.1 with
          | none => acc
          | some s =>
            ({ acc.1 with styles := set_style acc.1.styles e.1 (apply_style_info s e.2) },
              acc.2 + 1)) (doc, n)).1.paragraphs = doc.paragraphs ∧
       (entries.foldl
        (fun acc e =>
          match lookupStyle acc.1 e.1 with
          | none => acc
          | some s =>
            ({ acc.1 with styles := set_style acc.1.styles e.1 (apply_style_info s e.2) },
              acc.2 + 1)) (doc, n)).1.tables = doc.tables) ∧
      (entries.foldl
        (fun acc e =>
          match lookupStyle acc.1 e.1 with
          | none => acc
          | some s =>
            ({ acc.1 with styles := set_style acc.1.styles e.1 (apply_style_info s e.2) },
              acc.2 + 1)) (doc, n)).1.sections = doc.sections ∧
      (entries.foldl
        (fun acc e =>
          match lookupStyle acc.1 e.1 with
          | none => acc
          | some s =>
            ({ acc.1 with styles := set_style acc.1.styles e.1 (apply_style_info s e.2) },
              acc.2 + 1)) (doc, n)).1.core_properties = doc.core_properties by
    intro doc
    exact h doc 0
  induction entries with
  | nil =>
    intro doc n
    simp
  | cons e rest ih =>
    intro doc n
    rw [List.foldl_cons]
    cases hl : lookupStyle doc e.1 with
    | none => simpa [hl] using ih doc n
    | some s => simpa [hl] using ih _ (n + 1)

theorem set_style_self : ∀ (l : List Style) (n : String) (s : Style),
    l.find? (fun x => x.name == n) = some s → set_style l n s = l := by
  intro l
  induction l with
  | nil => intro n s h; simp at h
  | cons x rest ih =>
    intro n s h
    by_cases hb : x.name == n
    · simp only [List.find?_cons, hb] at h
      obtain rfl := Option.some.inj h
      simp [set_style, hb]
    · have hb' : (x.name == n) = false := by simpa using hb
      simp only [List.find?_cons, hb'] at h
      simp only [set_style, if_neg hb]
      rw [ih n s h]

theorem applyStylesList_styles_id (entries : List (String × StyleInfo)) :
    ∀ (doc : Doc) (n : Nat), doc.styles = freshStyles →
      (∀ e ∈ entries, ∀ s ∈ freshStyles, s.name = e.1 → apply_style_info s e.2 = s) →
      (entries.foldl
        (fun acc e =>
          match lookupStyle acc.1 e.1 with
          | none => acc
          | some s =>
            ({ acc.1 with styles := set_style acc.1.styles e.1 (apply_style_info s e.2) },
              acc.2 + 1)) (doc, n)).1.styles = freshStyles := by
  induction entries with
  | nil =>
    intro doc n hdoc hh
    simpa using hdoc
  | cons e rest ih =>
    intro doc n hdoc hh
    rw [List.foldl_cons]
    cases hl : lookupStyle doc e.1 with
    | none =>
      simp only [hl]
      exact ih doc n hdoc (fun x hx => hh x (List.mem_cons_of_mem _ hx))
    | some s =>
      simp only [hl]
      have hmem : s ∈ doc.styles := List.mem_of_find?_eq_some hl
      have hp : s.name = e.1 := by
        have := List.find?_some hl
        simpa using this
      have hid : apply_style_info s e.2 = s := by
        apply hh e (List.mem_cons_self e rest) s _ hp
        rw [← hdoc]
        exact hmem
      have hset : set_style doc.styles e.1 (apply_style_info s e.2) = doc.styles := by
        rw [hid]
        exact set_style_self doc.styles e.1 s hl
      rw [hset]
      exact ih _ (n + 1) hdoc (fun x hx => hh x (List.mem_cons_of_mem _ hx))

theorem fresh_style_identity : ∀ s ∈ freshStyles, apply_style_info s (style_info_of s) = s := by
  decide

theorem fresh_names_inj :
    ∀ s ∈ freshStyles, ∀ t ∈ freshStyles, s.name = t.name → s = t := by
  decide

theorem lookup_fresh_self : ∀ s ∈ freshStyles, lookupStyle freshDoc s.name = some s := by
  decide

theorem apply_sections_fresh :
    apply_sections_list freshDoc.sections (extract_section_properties freshDoc) =
      .ok freshDoc.sections := by
  rfl

theorem apply_core_properties_empty (cp : CoreProps) : apply_core_properties cp {} = cp := rfl

end DocxEditor

namespace DocxEditor

theorem extract_paragraph_entries (d : Doc) :
    (extract_styles_info d true true).paragraph_styles =
      entriesOf d.styles (styleKept (used_style_names d) true true) .paragraph := by
  rw [show extract_styles_info d true true =
    d.styles.foldl (extractStylesStep (used_style_names d) true true) {} from rfl,
    extract_styles_foldl]
  simp

theorem extract_entries_identity (d : Doc) (extras : List Style)
    (hstyles : d.styles = freshStyles ++ extras)
    (hex : ∀ e ∈ extras, e.name ∉ builtinStyleNames) :
    ∀ e ∈ (extract_styles_info d true true).paragraph_styles,
      ∀ s ∈ freshStyles, s.name = e.1 → apply_style_info s e.2 = s := by
  intro e he s hs hname
  rw [extract_paragraph_entries] at he
  simp only [entriesOf, List.mem_map, List.mem_filter] at he
  obtain ⟨st, ⟨hmem, -⟩, rfl⟩ := he
  rw [hstyles] at hmem
  have hname' : s.name = st.name := hname
  rcases List.mem_append.mp hmem with hf | hx
  · obtain rfl : s = st := fresh_names_inj s hs st hf hname'
    exact fresh_style_identity s hf
  · exact absurd
      (hname' ▸ (List.mem_map.mpr ⟨s, hs, rfl⟩ : s.name ∈ builtinStyleNames))
      (hex st hx)

theorem apply_extract_reachable (d : Doc) (hinv : ReachInv d) :
    ∃ cnt, apply_template_parameters_core (extract_document_parameters_core d false) =
      .ok (freshDoc, cnt) := by
  obtain ⟨hsec, hcp, extras, hstyles, hex⟩ := hinv
  have hsecex : extract_section_properties d = extract_section_properties freshDoc := by
    simp only [extract_section_properties, hsec]
  have hce : extract_core_properties d = ({} : CorePropsInfo) := by
    simp only [extract_core_properties, hcp]
    rfl
  have hfieldsA := applyStylesList_fields
    (extract_styles_info d true true).paragraph_styles freshDoc
  have hstylesB := applyStylesList_styles_id
    (extract_styles_info d true true).paragraph_styles freshDoc 0 rfl
    (extract_entries_identity d extras hstyles hex)
  have hresdoc :
      (applyStylesList freshDoc (extract_styles_info d true true).paragraph_styles).1 =
        freshDoc :=
    docFieldsEq hfieldsA.1.1 hfieldsA.1.2 hstylesB hfieldsA.2.1 hfieldsA.2.2
  refine ⟨(applyStylesList freshDoc (extract_styles_info d true true).paragraph_styles).2, ?_⟩
  rw [show extract_document_parameters_core d false =
      { core_properties := {}, sections := extract_section_properties freshDoc,
        styles := extract_styles_info d true true,
        paragraphs_count := d.paragraphs.length, tables_count := d.tables.length } from by
    simp only [extract_document_parameters_core, hsecex, hce, Bool.not_false]]
  simp only [apply_template_parameters_core, apply_sections_fresh]
  rw [show ({ freshDoc with sections := freshDoc.sections } : Doc) = freshDoc from rfl]
  simp only [apply_styles_from_params] at hresdoc ⊢
  rw [hresdoc, apply_core_properties_empty]

/-- The claim-C1 counterexample document: create a custom style with a
non-default font name through `create_custom_style`, then use it for an
inserted paragraph. -/
def roundTripCounterDoc : Doc := runBuild
  [BuildOp.createStyle (some "CustomStyle") none none none (some "Arial") none "Normal",
   BuildOp.insertLine none (some "Body".data) "after" (some "CustomStyle") (some 0)]

/-- C1 counterexample: for a document built purely through the
style-creation and block-insertion operations, `apply(extract(d))` does
*not* reproduce all non-default style attributes of `d` — the created
style does not exist in the fresh document's built-in style set, so the
applicator skips it and the new document has no style of that name at
all (its Arial font name is lost). -/
theorem round_trip_claim_counterexample : ¬ roundTripClaim roundTripCounterDoc := by
  simp only [roundTripClaim]
  decide

/-- C1 amended: for every document `d` built purely through the
block-insertion and style-creation operations, `apply(extract(d))`
succeeds and yields a new document with the same section margins and
orientation as `d`, and with every *built-in-named* style of `d` (the
styles that exist in a fresh document) preserved exactly; styles of `d`
whose names are not in the fresh document's built-in set are skipped and
absent from the new document. -/
theorem apply_extract_round_trip (ops : List BuildOp) :
    ∃ nd cnt,
      apply_template_parameters_core
        (extract_document_parameters_core (runBuild ops) false) = .ok (nd, cnt) ∧
      nd.sections.map sectionGeometry = (runBuild ops).sections.map sectionGeometry ∧
      (∀ s ∈ (runBuild ops).styles, s.name ∈ builtinStyleNames →
        lookupStyle nd s.name = some s) ∧
      (∀ s ∈ (runBuild ops).styles, s.name ∉ builtinStyleNames →
        lookupStyle nd s.name = none) := by
  have hinv := runBuild_inv ops
  obtain ⟨cnt, happ⟩ := apply_extract_reachable _ hinv
  obtain ⟨hsec, hcp, extras, hstyles, hex⟩ := hinv
  refine ⟨freshDoc, cnt, happ, by rw [hsec], ?_, ?_⟩
  · intro s hs hb
    rw [hstyles] at hs
    rcases List.mem_append.mp hs with hf | hx
    · exact lookup_fresh_self s hf
    · exact absurd hb (hex s hx)
  · intro s hs hb
    apply List.find?_eq_none.mpr
    intro t htmem
    intro hbeq
    exact hb (List.mem_map.mpr ⟨t, htmem, by simpa using hbeq⟩)

end DocxEditor

namespace DocxEditor

def c1WitnessOps : List BuildOp :=
  [BuildOp.createStyle (some "CustomStyle") (some true) none (some 12) none none "Normal",
   BuildOp.insertList none ["A".data, "B".data] "after" (some 0) "bullet"]

theorem apply_extract_round_trip_witness :
    ∃ nd cnt,
      apply_template_parameters_core
        (extract_document_parameters_core (runBuild c1WitnessOps) false) = .ok (nd, cnt) ∧
      nd.sections.map sectionGeometry = (runBuild c1WitnessOps).sections.map sectionGeometry ∧
      (∀ s ∈ (runBuild c1WitnessOps).styles, s.name ∈ builtinStyleNames →
        lookupStyle nd s.name = some s) ∧
      (∀ s ∈ (runBuild c1WitnessOps).styles, s.name ∉ builtinStyleNames →
        lookupStyle nd s.name = none) :=
  apply_extract_round_trip c1WitnessOps

theorem file_not_found_behaviour_witness :
    extract_document_parameters demoState (some "missing.docx") false =
      (.error "File not found: missing.docx", demoState) :=
  (file_not_found_behaviour demoState "missing.docx" rfl false demoDoc rfl "T".data
    (by decide) 0 (by decide)).1

theorem insert_numbered_list_order_witness :
    (insert_numbered_list_near_text demoState none none ["A".data, "B".data] "before"
      (some ((0 : Nat) : Int)) "bullet").2.current_doc =
      some { demoDoc with paragraphs := (demoDoc.paragraphs.take 0 ++
        listBlocks ["A".data, "B".data] "bullet" ++ demoDoc.paragraphs.drop 0) } :=
  (insert_numbered_list_order demoState demoDoc rfl ["A".data, "B".data] (by decide) 0
    (by decide) "bullet").1

theorem format_text_rebuilds_range_witness :
    (format_text demoState none (some ((0 : Nat) : Int)) ((0 : Nat) : Int)
      (some ((5 : Nat) : Int)) (some true) none none none none none).2.current_doc =
      some { demoDoc with paragraphs := (demoDoc.paragraphs.set 0
        (fmtPara (demoDoc.paragraphs.getD 0 {}) 0 5 (some true) none none none none none)) } :=
  (format_text_rebuilds_range demoState demoDoc rfl 0 (by decide) 0 5 (by decide) (by decide)
    (some true) none none none none none).1

theorem format_text_validation_witness :
    format_text demoState none (some 5) 0 (some 3) none none none none none none =
      ("Invalid paragraph index.", demoState) :=
  (format_text_validation demoState demoDoc rfl 5 0 3 none none none none none none).2.1
    (by decide)

theorem search_and_replace_spec_witness :
    (search_and_replace demoState none (some "foo".data) (some [])).2.current_doc =
      some (search_and_replace_core demoDoc "foo".data []).1 :=
  (search_and_replace_spec demoState demoDoc rfl "foo".data [] (by decide)).2.2

theorem insert_missing_target_resolution_witness :
    insert_header_near_text demoState none none (some "T".data) "after" "Heading 1" none =
      ("Target paragraph not found.", demoState) :=
  (insert_missing_target_resolution demoState demoDoc rfl "T".data (by decide) ["A".data]
    (by decide) "after" "Heading 1" none "bullet").2.1

theorem extract_styles_filter_minimality_witness :
    (style_info_of normalStyle).font = none ∧
      (style_info_of normalStyle).paragraph_format = none :=
  (extract_styles_filter_minimality freshDoc true normalStyle).2.2.2.2
    (Or.inl rfl) (Or.inl rfl) (by decide) (by decide) (by decide) (Or.inl rfl)
    (Or.inl rfl) (Or.inl rfl) (Or.inl rfl) (Or.inl rfl) (Or.inl rfl) (Or.inl rfl)
    (Or.inl rfl)

theorem empty_target_text_not_found_witness :
    insert_numbered_list_near_text demoState none (some []) ["A".data] "after" none "bullet" =
      ("Target paragraph not found.", demoState) :=
  (empty_target_text_not_found demoState demoDoc rfl ["A".data] (by decide)).2.2

end DocxEditor
